import Mathlib

/-! Wayne OpenAPI deployment controller.

A shallow embedding of `src/backend/controllers/openapi/deployment.go`:
the handlers `GetDeploymentStatus`, `UpgradeDeployment`, `ScaleDeployment`
and the helpers `getOnlineDeploymenetInfo` and `publishDeployment`.

* Go maps are association lists (`GoMap`) with at most one entry per key.
* The relational stores and the log of calls made to Kubernetes clusters
  form an explicit `World` that every operation threads through.
* Everything the handlers call but that lives outside the file (JSON
  codecs, the Kubernetes client, failures of store writes, named constants)
  is a field of `Env`.
* A nil dereference or an index out of range is the outcome `panic`.
-/

namespace Wayne

/-! ## Go maps -/

/-- A Go `map[κ]ν` as an association list. `set` keeps one entry per key,
so every map built from the empty map has distinct keys. -/
abbrev GoMap (κ ν : Type) := List (κ × ν)

namespace GoMap

variable {κ ν : Type} [DecidableEq κ]

/-- The entry stored under `k`, if any (`v, ok := m[k]`). -/
def lookup : GoMap κ ν → κ → Option ν
  | [], _ => none
  | (k', v) :: m, k => if k' = k then some v else lookup m k

/-- The assignment `m[k] = v`: overwrite in place, or add a new entry. -/
def set : GoMap κ ν → κ → ν → GoMap κ ν
  | [], k, v => [(k, v)]
  | (k', v') :: m, k, v => if k' = k then (k, v) :: m else (k', v') :: set m k v

/-- The builtin `delete(m, k)`. -/
def delete : GoMap κ ν → κ → GoMap κ ν
  | [], _ => []
  | (k', v') :: m, k => if k' = k then delete m k else (k', v') :: delete m k

/-- The statement `m[k] = append(m[k], v)` on a map of slices. -/
def push (m : GoMap κ (List ν)) (k : κ) (v : ν) : GoMap κ (List ν) :=
  m.set k ((m.lookup k).getD [] ++ [v])

/-- The builtin `len(m)`. -/
def len (m : GoMap κ ν) : Nat := m.length

/-- The keys in the order `for k := range m` visits them in this model. -/
def keys (m : GoMap κ ν) : List κ := m.map Prod.fst

end GoMap

/-! ## Strings -/

/-- The pieces of a character list between the occurrences of `sep`. -/
def splitChars (sep : Char) : List Char → List (List Char)
  | [] => [[]]
  | c :: cs =>
    if c = sep then [] :: splitChars sep cs
    else
      match splitChars sep cs with
      | [] => [[c]]
      | p :: ps => (c :: p) :: ps

/-- Go `strings.Split(s, sep)` for a separator of one character. -/
def Split (s : String) (sep : Char) : List String :=
  (splitChars sep s.data).map String.mk

/-- Go `strings.Join(elems, sep)`. -/
def Join (elems : List String) (sep : String) : String :=
  sep.intercalate elems

/-! ## Data model -/

/-- The fields of `v1.Container` the controller touches; `Other` carries the rest. -/
structure Container where
  Name : String
  Image : String
  Other : String
  deriving DecidableEq, Repr

/-- The fields of `v1beta1.Deployment` the controller touches: `ObjectMeta.Name`,
`ObjectMeta.Namespace`, `Spec.Replicas` (a pointer, `none` when nil),
`Spec.Template.Spec.Containers`; `Other` carries the rest. -/
structure DeploymentObject where
  Name : String
  Namespace : String
  Replicas : Option Int
  Containers : List Container
  Other : String
  deriving DecidableEq, Repr

/-- The parsed `models.Deployment.MetaDataObj`: desired replicas per cluster. -/
structure DeploymentMetaData where
  Replicas : GoMap String Int
  deriving DecidableEq, Repr

/-- A row of `models.Deployment`. -/
structure Deployment where
  Id : Int
  Name : String
  AppId : Int
  MetaData : String
  MetaDataObj : DeploymentMetaData
  deriving DecidableEq, Repr

/-- A row of `models.DeploymentTemplate`. -/
structure DeploymentTemplate where
  Id : Int
  DeploymentId : Int
  Template : String
  Description : String
  User : String
  deriving DecidableEq, Repr

/-- The parsed `models.Namespace.MetaDataObj`. -/
structure NamespaceMetaData where
  Namespace : String
  deriving DecidableEq, Repr

/-- A row of `models.Namespace`. -/
structure Namespace where
  Name : String
  MetaData : String
  MetaDataObj : NamespaceMetaData
  deriving DecidableEq, Repr

/-- A row of `models.App` with its related namespace loaded. -/
structure App where
  Id : Int
  Namespace : Namespace
  deriving DecidableEq, Repr

/-- A row of `models.Cluster`. -/
structure Cluster where
  Name : String
  MetaData : String
  deriving DecidableEq, Repr

/-- A row of `models.PublishStatus`. -/
structure PublishStatus where
  PublishType : Int
  ResourceId : Int
  TemplateId : Int
  Cluster : String
  deriving DecidableEq, Repr

/-- A row of `models.PublishHistory`. `Status` is zero until it is assigned. -/
structure PublishHistory where
  PublishType : Int
  ResourceId : Int
  ResourceName : String
  TemplateId : Int
  Cluster : String
  User : String
  Message : String
  Status : Int
  deriving DecidableEq, Repr

/-- The struct `DeploymentInfo` of the controller. -/
structure DeploymentInfo where
  Deployment : Deployment
  DeploymentTemplete : DeploymentTemplate
  DeploymentObject : DeploymentObject
  Cluster : Cluster
  Namespace : Namespace
  deriving DecidableEq, Repr

/-- The pod counters of a deployment detail (`deployInfo.Pods`). -/
structure PodCounts where
  Current : Int
  Desired : Int
  Running : Int
  Pending : Int
  Failed : Int
  Succeeded : Int
  Warnings : List String
  deriving DecidableEq, Repr

/-- What `resdeployment.GetDeploymentDetail` returns, as far as it is read. -/
structure DeploymentDetail where
  Name : String
  Namespace : String
  Labels : List (String × String)
  CreateTime : Nat
  Pods : PodCounts
  deriving DecidableEq, Repr

/-- An element of what `pod.GetPodsByDeployment` returns. -/
structure PodInfo where
  Name : String
  Namespace : String
  State : String
  PodIp : String
  NodeName : String
  StartTime : Nat
  Labels : List (String × String)
  ContainerStatus : List (String × Int)
  deriving DecidableEq, Repr

/-- The body `DeploymentStatus` of the status response: `response.Pod` and
`response.Deployment` copy the fields of `PodInfo` and `DeploymentDetail`. -/
structure DeploymentStatus where
  Pods : List PodInfo
  Deployment : DeploymentDetail
  Healthz : Bool
  deriving DecidableEq, Repr

/-- A call made to a Kubernetes cluster, recorded in the order it is made. -/
inductive ClusterCall where
  | Client (cluster : String)
  | Manager (cluster : String)
  | GetDeployment (cluster name ns : String)
  | GetDeploymentDetail (cluster name ns : String)
  | GetPodsByDeployment (cluster ns name : String)
  | CreateOrUpdateDeployment (cluster : String) (obj : DeploymentObject)
  | UpdateDeployment (cluster : String) (obj : DeploymentObject)
  deriving DecidableEq, Repr

/-- The cluster a call is addressed to. -/
def ClusterCall.cluster : ClusterCall → String
  | .Client c => c
  | .Manager c => c
  | .GetDeployment c _ _ => c
  | .GetDeploymentDetail c _ _ => c
  | .GetPodsByDeployment c _ _ => c
  | .CreateOrUpdateDeployment c _ => c
  | .UpdateDeployment c _ => c

/-- The stores behind `models.*Model`, the log of updates issued on
deployment records and the log of calls made to clusters. -/
structure World where
  deployments : List Deployment
  apps : List App
  namespaces : List Namespace
  clusters : List Cluster
  templates : List DeploymentTemplate
  publishStatus : List PublishStatus
  publishHistory : List PublishHistory
  deploymentUpdates : List Deployment
  clusterCalls : List ClusterCall
  deriving DecidableEq, Repr

/-- What the controller file takes from outside: named constants of
`models`, the JSON codecs, `common.DeploymentPreDeploy` (taken to change the
workload object it is given and nothing else), the answers of the Kubernetes
client and the failures of store writes. An error is its text; `none` in an
`...Err` field means the call succeeds. Every answer may depend on the world
at the time of the call. `rangeOrder` is the order in which a
`for ... range` statement visits the entries of `deployInfoMap` and
`rangeKeys` the order in which one visits the keys of a map of strings;
Go leaves both open. -/
structure Env where
  PublishTypeDeployment : Int
  ReleaseFailure : Int
  ReleaseSuccess : Int
  unmarshalDeployment : String → Except String DeploymentObject
  marshalDeployment : DeploymentObject → Except String String
  unmarshalNamespaceMeta : String → Except String NamespaceMetaData
  unmarshalDeploymentMeta : String → Except String DeploymentMetaData
  marshalDeploymentMeta : DeploymentMetaData → String
  DeploymentPreDeploy :
    DeploymentObject → Deployment → Cluster → Namespace → DeploymentObject
  clientErr : World → String → Option String
  managerErr : World → String → Option String
  getDeployment : World → String → String → String → Except String DeploymentObject
  getDeploymentDetail : World → String → String → String → Except String DeploymentDetail
  getPodsByDeployment : World → String → String → String → Except String (List PodInfo)
  createOrUpdateErr : World → String → DeploymentObject → Option String
  updateDeploymentErr : World → String → DeploymentObject → Option String
  tplAddErr : World → DeploymentTemplate → Option String
  deploymentUpdateErr : World → Deployment → Option String
  statusAddErr : World → PublishStatus → Option String
  historyAddErr : World → PublishHistory → Option String
  rangeOrder : GoMap Int (List DeploymentInfo) → GoMap Int (List DeploymentInfo)
  rangeKeys : List String → List String

/-- The result of a helper that returns `(value, error)` and may panic. -/
inductive Res (α : Type) where
  | ok (a : α)
  | error (msg : String)
  | panic
  deriving DecidableEq, Repr

/-- The Kubernetes constant `v1.PodRunning`. -/
def PodRunning : String := "Running"

/-- The constant `http.StatusOK`. -/
def StatusOK : Nat := 200

/-- The constant `http.StatusBadRequest`. -/
def StatusBadRequest : Nat := 400

/-- The constant `http.StatusInternalServerError`. -/
def StatusInternalServerError : Nat := 500

/-! ## Stores -/

/-- Modelled from the spec: `models.DeploymentModel.GetByName`, the point
lookup of the deployment record store (`get(key) -> (record, error)`, not
found on a miss). -/
def DeploymentModel.GetByName (w : World) (name : String) : Except String Deployment :=
  match w.deployments.find? (fun d => d.Name = name) with
  | some d => .ok d
  | none => .error "NotFound"

/-- Modelled from the spec: `models.NamespaceModel.GetByName`, a point lookup
by name. -/
def NamespaceModel.GetByName (w : World) (name : String) : Except String Namespace :=
  match w.namespaces.find? (fun n => n.Name = name) with
  | some n => .ok n
  | none => .error "NotFound"

/-- Modelled from the spec: `models.DeploymentTplModel.GetById`, the point
lookup of the template repository. -/
def DeploymentTplModel.GetById (w : World) (id : Int) : Except String DeploymentTemplate :=
  match w.templates.find? (fun t => t.Id = id) with
  | some t => .ok t
  | none => .error "NotFound"

/-- Modelled from the spec: `models.AppModel.GetById`, a point lookup by id. -/
def AppModel.GetById (w : World) (id : Int) : Except String App :=
  match w.apps.find? (fun a => a.Id = id) with
  | some a => .ok a
  | none => .error "NotFound"

/-- Modelled from the spec: `models.ClusterModel.GetParsedMetaDataByName`,
the lookup of the cluster descriptor by name, not found if unknown. -/
def ClusterModel.GetParsedMetaDataByName (w : World) (name : String) : Except String Cluster :=
  match w.clusters.find? (fun c => c.Name = name) with
  | some c => .ok c
  | none => .error "NotFound"

/-- Modelled from the spec: `models.PublishStatusModel.GetByCluster`, the row
of the publish status store for (resource type, resource id, cluster). -/
def PublishStatusModel.GetByCluster (w : World) (publishType resourceId : Int) (cluster : String) :
    Except String PublishStatus :=
  match w.publishStatus.find?
      (fun s =>
        s.PublishType = publishType ∧ s.ResourceId = resourceId ∧ s.Cluster = cluster) with
  | some s => .ok s
  | none => .error "NotFound"

/-- The row of the status store with the key of `s` is replaced by `s`; a
row is added when there is none. -/
def upsertStatus : List PublishStatus → PublishStatus → List PublishStatus
  | [], s => [s]
  | r :: rs, s =>
    if r.PublishType = s.PublishType ∧ r.ResourceId = s.ResourceId ∧ r.Cluster = s.Cluster then
      s :: rs
    else r :: upsertStatus rs s

/-- Modelled from the spec: `models.PublishStatusModel.Add(id, tplId, cluster,
type)`, the upsert of the publish status store (`upsert(key, value) ->
error`). -/
def PublishStatusModel.Add (env : Env) (w : World) (id tplId : Int) (cluster : String)
    (publishType : Int) : Except String World :=
  let s : PublishStatus :=
    { PublishType := publishType, ResourceId := id, TemplateId := tplId, Cluster := cluster }
  match env.statusAddErr w s with
  | some e => .error e
  | none => .ok { w with publishStatus := upsertStatus w.publishStatus s }

/-- Modelled from the spec: `models.PublishHistoryModel.Add`, the insert
into the publish history log (`add(record) -> (id, error)`): the row is
appended unless the store refuses it. -/
def PublishHistoryModel.Add (env : Env) (w : World) (h : PublishHistory) : Except String World :=
  match env.historyAddErr w h with
  | some e => .error e
  | none => .ok { w with publishHistory := w.publishHistory ++ [h] }

/-- The statement `defer models.PublishHistoryModel.Add(publishHistory)` when
it runs at the exit of the function: the insert is issued for the row as it
is then and its result is dropped, so a refused insert leaves the world as
it was. -/
def deferredHistoryAdd (env : Env) (w : World) (h : PublishHistory) : World :=
  match PublishHistoryModel.Add env w h with
  | .ok w2 => w2
  | .error _ => w

/-- The id the template repository gives to its next row: one more than
every id in use (and at least 1). -/
def nextTemplateId (ts : List DeploymentTemplate) : Int :=
  (ts.map (fun t => t.Id)).foldr max 0 + 1

/-- Modelled from the spec: `models.DeploymentTplModel.Add`, the create of the
template repository (`add(record) -> (id, error)`, assigns a new id). -/
def DeploymentTplModel.Add (env : Env) (w : World) (m : DeploymentTemplate) :
    Except String (Int × World) :=
  match env.tplAddErr w m with
  | some e => .error e
  | none =>
    let id := nextTemplateId w.templates
    .ok (id, { w with templates := w.templates ++ [{ m with Id := id }] })

/-- Modelled from the spec: `models.DeploymentModel.UpdateById`, the update of
the deployment record store (`update(record) -> error`): the row with the
id of the record is replaced and the update is logged. -/
def DeploymentModel.UpdateById (env : Env) (w : World) (m : Deployment) : Except String World :=
  match env.deploymentUpdateErr w m with
  | some e => .error e
  | none =>
    .ok { w with
      deployments := w.deployments.map (fun r => if r.Id = m.Id then m else r)
      deploymentUpdates := w.deploymentUpdates ++ [m] }

/-- Modelled from the spec: `models.DeploymentModel.Update(replicas, deploy,
cluster)`, which updates the per-cluster replica map of the deployment
record and writes the record back. -/
def DeploymentModel.Update (env : Env) (w : World) (replicas : Int) (deploy : Deployment)
    (cluster : String) : Except String World :=
  let obj : DeploymentMetaData := { Replicas := deploy.MetaDataObj.Replicas.set cluster replicas }
  DeploymentModel.UpdateById env w
    { deploy with MetaDataObj := obj, MetaData := env.marshalDeploymentMeta obj }

/-! ## The controller -/

/-- What a handler sends back. -/
inductive Response where
  /-- The handler called `c.HandleResponse(data)` with these errors collected. -/
  | handled (errors : List String) (data : Option DeploymentStatus)
  /-- The handler called `c.AddErrorAndResponse(msg, code)`. -/
  | failure (code : Nat) (errors : List String)
  /-- The handler panicked before it responded. -/
  | panicked
  deriving DecidableEq, Repr

/-- The part of `OpenAPIController` the handlers use: the error list
`c.Failure.Body.Errors` and the response sent, if any. -/
structure Controller where
  Errors : List String
  response : Option Response
  deriving DecidableEq, Repr

/-- The controller when a handler starts. -/
def Controller.new : Controller := { Errors := [], response := none }

/-- Modelled from the spec: `c.AddError(msg)` appends to the error list of
the request. -/
def Controller.AddError (c : Controller) (msg : String) : Controller :=
  { c with Errors := c.Errors ++ [msg] }

/-- Modelled from the spec: `c.AddErrorAndResponse(msg, code)` records the
error and answers with the status code. -/
def Controller.AddErrorAndResponse (c : Controller) (msg : String) (code : Nat) : Controller :=
  { Errors := c.Errors ++ [msg], response := some (.failure code (c.Errors ++ [msg])) }

/-- Modelled from the spec: `c.HandleResponse(data)` answers with the data and
the errors collected so far. -/
def Controller.HandleResponse (c : Controller) (data : Option DeploymentStatus) : Controller :=
  { c with response := some (.handled c.Errors data) }

/-- The handler stops on a panic: nothing it collected is sent. -/
def Controller.Panic (c : Controller) : Controller :=
  { c with response := some .panicked }

/-! ## `getOnlineDeploymenetInfo` -/

/-- The Go function `getOnlineDeploymenetInfo(deployment, namespace, cluster,
templateId)`. It only reads the stores. The error of `AppModel.GetById` is
dropped by the source, so a missing app is a nil dereference. -/
def getOnlineDeploymenetInfo (env : Env) (w : World) (deployment ns cluster : String)
    (templateId : Int) : Res DeploymentInfo :=
  if deployment = "" then .error "Invalid deployment parameter!"
  else if ns = "" then .error "Invalid namespace parameter!"
  else if cluster = "" then .error "Invalid cluster parameter!"
  else
    match DeploymentModel.GetByName w deployment with
    | .error _ => .error ("Failed to get deployment by name(" ++ deployment ++ ")!")
    | .ok deployResource =>
      let tpl : Except String DeploymentTemplate :=
        if templateId ≠ 0 then
          match DeploymentTplModel.GetById w templateId with
          | .error e => .error ("Failed to get deployment template by id: " ++ e)
          | .ok t =>
            if deployResource.Id ≠ t.DeploymentId then
              .error "Invalid template id parameter(no permission)!"
            else .ok t
        else
          match PublishStatusModel.GetByCluster w env.PublishTypeDeployment deployResource.Id
              cluster with
          | .error e => .error ("Failed to get publish status by cluster: " ++ e)
          | .ok status =>
            match DeploymentTplModel.GetById w status.TemplateId with
            | .error e => .error ("Failed to get deployment template by id: " ++ e)
            | .ok t => .ok t
      match tpl with
      | .error e => .error e
      | .ok template =>
        match env.unmarshalDeployment template.Template with
        | .error e => .error ("Failed to parse deployment template: " ++ e)
        | .ok deployObj =>
          match AppModel.GetById w deployResource.AppId with
          | .error _ => .panic
          | .ok app =>
            match env.unmarshalNamespaceMeta app.Namespace.MetaData with
            | .error e => .error ("Failed to parse namespace metadata: " ++ e)
            | .ok nsMeta =>
              let appNamespace : Namespace := { app.Namespace with MetaDataObj := nsMeta }
              if ns ≠ appNamespace.Name then
                .error "Invalid namespace parameter(should be the namespace of the application)"
              else
                let deployObj := { deployObj with Namespace := appNamespace.MetaDataObj.Namespace }
                match env.unmarshalDeploymentMeta deployResource.MetaData with
                | .error e => .error ("Failed to parse deployment resource metadata: " ++ e)
                | .ok meta =>
                  let deployResource := { deployResource with MetaDataObj := meta }
                  let rp : Int := (deployResource.MetaDataObj.Replicas.lookup cluster).getD 0
                  let deployObj := { deployObj with Replicas := some rp }
                  match ClusterModel.GetParsedMetaDataByName w cluster with
                  | .error e => .error ("Failed to get cluster by name: " ++ e)
                  | .ok cl =>
                    .ok { Deployment := deployResource, DeploymentTemplete := template,
                          DeploymentObject := deployObj, Cluster := cl,
                          Namespace := appNamespace }

/-! ## `publishDeployment` -/

/-- A call to a cluster is appended to the log. -/
def World.call (w : World) (k : ClusterCall) : World :=
  { w with clusterCalls := w.clusterCalls ++ [k] }

/-- The Go function `publishDeployment(deployInfo, username)`: the world
after the call and the error returned (`none` for nil). The history row is
written by a `defer` placed inside the branch where the client was obtained,
so it is written last and only there. -/
def publishDeployment (env : Env) (w : World) (deployInfo : DeploymentInfo) (username : String) :
    World × Option String :=
  let w0 := w.call (.Client deployInfo.Cluster.Name)
  match env.clientErr w deployInfo.Cluster.Name with
  | none =>
    let publishHistory : PublishHistory :=
      { PublishType := env.PublishTypeDeployment
        ResourceId := deployInfo.Deployment.Id
        ResourceName := deployInfo.DeploymentObject.Name
        TemplateId := deployInfo.DeploymentTemplete.Id
        Cluster := deployInfo.Cluster.Name
        User := username
        Message := deployInfo.DeploymentTemplete.Description
        Status := 0 }
    let w1 := w0.call
      (.CreateOrUpdateDeployment deployInfo.Cluster.Name deployInfo.DeploymentObject)
    match env.createOrUpdateErr w0 deployInfo.Cluster.Name deployInfo.DeploymentObject with
    | some e =>
      let publishHistory := { publishHistory with Status := env.ReleaseFailure, Message := e }
      (deferredHistoryAdd env w1 publishHistory,
        some ("Failed to create or update deployment by k8s client: " ++ e))
    | none =>
      let publishHistory := { publishHistory with Status := env.ReleaseSuccess }
      match PublishStatusModel.Add env w1 deployInfo.Deployment.Id deployInfo.DeploymentTemplete.Id
          deployInfo.Cluster.Name env.PublishTypeDeployment with
      | .error e => (deferredHistoryAdd env w1 publishHistory, some e)
      | .ok w2 => (deferredHistoryAdd env w2 publishHistory, none)
  | some e =>
    (w0, some ("Failed to get k8s client(cluster: " ++ deployInfo.Cluster.Name ++ "): " ++ e))

/-! ## `UpgradeDeployment` -/

/-- The query parameters of `UpgradeDeployment` as the handler reads them,
after the three permission checks have passed: the strings of
`c.GetString`, the results of `c.GetBool("publish", true)` and
`c.GetInt("template_id", 0)`, and `c.APIKey.String()`. -/
structure UpgradeDeploymentParam where
  Deployment : String
  Namespace : String
  Cluster : String
  Description : String
  Images : String
  Publish : Except String Bool
  TemplateId : Except String Int
  APIKey : String

/-- The loop that fills `param.imageMap` from the segments of `param.Images`. -/
def imageMapOf : List String → GoMap String String → GoMap String String
  | [], m => m
  | image :: rest, m =>
    match Split image '=' with
    | [k, v] => if v ≠ "" then imageMapOf rest (m.set k v) else imageMapOf rest m
    | _ => imageMapOf rest m

/-- The override map `param.imageMap` built from `param.Images`. -/
def parseImages (images : String) : GoMap String String :=
  imageMapOf (Split images ',') []

/-- The loop over the containers of the workload object: a container whose
name has a non-empty image in `imageMap` takes that image and its name is
deleted from the working copy `ci`. Returns the containers and `ci`. -/
def mergeImages (imageMap : GoMap String String) :
    List Container → GoMap String String → List Container × GoMap String String
  | [], ci => ([], ci)
  | v :: rest, ci =>
    if (imageMap.lookup v.Name).getD "" ≠ "" then
      let r := mergeImages imageMap rest (ci.delete v.Name)
      ({ v with Image := (imageMap.lookup v.Name).getD "" } :: r.1, r.2)
    else
      let r := mergeImages imageMap rest ci
      (v :: r.1, r.2)

/-- The workload object of `deployInfo` after the call
`common.DeploymentPreDeploy(deployInfo.DeploymentObject, deployInfo.Deployment,
deployInfo.Cluster, deployInfo.Namespace)`. -/
def preDeploy (env : Env) (deployInfo : DeploymentInfo) : DeploymentObject :=
  env.DeploymentPreDeploy deployInfo.DeploymentObject deployInfo.Deployment deployInfo.Cluster
    deployInfo.Namespace

/-- The loop of the branch `param.TemplateId != 0 && param.Publish`: each
cluster is resolved with the given template and published. `none` is a
panic. -/
def templateLoop (env : Env) (param : UpgradeDeploymentParam) (templateId : Int) :
    List String → World → Controller → World × Option Controller
  | [], w, c => (w, some c)
  | cluster :: rest, w, c =>
    match getOnlineDeploymenetInfo env w param.Deployment param.Namespace cluster templateId with
    | .panic => (w, none)
    | .error _ =>
      templateLoop env param templateId rest w
        (c.AddError ("Failed to get online deployment on " ++ cluster ++ "!"))
    | .ok deployInfo =>
      let deployInfo := { deployInfo with DeploymentObject := preDeploy env deployInfo }
      match publishDeployment env w deployInfo param.APIKey with
      | (w1, some _) =>
        templateLoop env param templateId rest w1
          (c.AddError ("Failed to publish deployment on " ++ cluster ++ "!"))
      | (w1, none) => templateLoop env param templateId rest w1 c

/-- The body of the first loop of the image branch once the cluster is
resolved: the template is reset (`Id = 0`, user and description of the
request) and the images are merged into the workload object. Returns the
`deployInfo` so changed and the working copy `ci` of the override map. -/
def mergeCluster (env : Env) (param : UpgradeDeploymentParam) (imageMap : GoMap String String)
    (deployInfo : DeploymentInfo) : DeploymentInfo × GoMap String String :=
  let obj := preDeploy env deployInfo
  let tpl := { deployInfo.DeploymentTemplete with
    Id := 0, User := param.APIKey, Description := "[APIKey] " ++ param.Description }
  let merged := mergeImages imageMap obj.Containers imageMap
  ({ deployInfo with
      DeploymentTemplete := tpl, DeploymentObject := { obj with Containers := merged.1 } },
    merged.2)

/-- The first loop of the image branch: each cluster is resolved on its
online template, the images are merged and the result is appended to the
group of the online template id in `deployInfoMap`. The keys left in the
working copy are collected by `for k := range ci`, in the order
`env.rangeKeys` gives. `none` is a panic. -/
def mergeLoop (env : Env) (w : World) (param : UpgradeDeploymentParam)
    (imageMap : GoMap String String) :
    List String → Controller → GoMap Int (List DeploymentInfo) →
      Option (Controller × GoMap Int (List DeploymentInfo))
  | [], c, deployInfoMap => some (c, deployInfoMap)
  | cluster :: rest, c, deployInfoMap =>
    match getOnlineDeploymenetInfo env w param.Deployment param.Namespace cluster 0 with
    | .panic => none
    | .error _ =>
      mergeLoop env w param imageMap rest
        (c.AddError ("Failed to get online deployment info on " ++ cluster)) deployInfoMap
    | .ok deployInfo =>
      let tmplId := deployInfo.DeploymentTemplete.Id
      let merged := mergeCluster env param imageMap deployInfo
      if merged.2.len > 0 then
        mergeLoop env w param imageMap rest
          (c.AddError ("Deployment template don't have container: " ++
            Join (env.rangeKeys merged.2.keys) ","))
          deployInfoMap
      else
        mergeLoop env w param imageMap rest c (deployInfoMap.push tmplId merged.1)

/-- The inner loop of the second loop: the record of every member of the
group is updated and the member takes the id of the new template. -/
def updateLoop (env : Env) (newtmplId : Int) :
    List DeploymentInfo → World → Controller → World × Controller × List DeploymentInfo
  | [], w, c => (w, c, [])
  | deployInfo :: rest, w, c =>
    match DeploymentModel.UpdateById env w deployInfo.Deployment with
    | .error _ =>
      let r := updateLoop env newtmplId rest w (c.AddError "Failed to update deployment by id!")
      (r.1, r.2.1, deployInfo :: r.2.2)
    | .ok w1 =>
      let r := updateLoop env newtmplId rest w1 c
      (r.1, r.2.1,
        { deployInfo with
          DeploymentTemplete := { deployInfo.DeploymentTemplete with Id := newtmplId } } :: r.2.2)

/-- The second loop of the image branch, over the groups of
`deployInfoMap`: the object of the first member is serialised into its
template, the template is added to the repository and the members are
updated. Returns the world and, unless the loop panicked (`deployInfos[0]`
on an empty group, `none`), the controller and the groups as the loop
leaves them. -/
def saveLoop (env : Env) :
    List (Int × List DeploymentInfo) → World → Controller →
      World × Option (Controller × List (Int × List DeploymentInfo))
  | [], w, c => (w, some (c, []))
  | (_, []) :: _, w, _ => (w, none)
  | (id, deployInfo :: others) :: rest, w, c =>
    match env.marshalDeployment deployInfo.DeploymentObject with
    | .error _ =>
      let r := saveLoop env rest w (c.AddError "Failed to parse metadata!")
      (r.1, r.2.map (fun x => (x.1, (id, deployInfo :: others) :: x.2)))
    | .ok newTpl =>
      let deployInfo := { deployInfo with
        DeploymentTemplete := { deployInfo.DeploymentTemplete with Template := newTpl } }
      match DeploymentTplModel.Add env w deployInfo.DeploymentTemplete with
      | .error _ =>
        let r := saveLoop env rest w (c.AddError "Failed to save new deployment template!")
        (r.1, r.2.map (fun x => (x.1, (id, deployInfo :: others) :: x.2)))
      | .ok (newtmplId, w1) =>
        let u := updateLoop env newtmplId (deployInfo :: others) w1 c
        let r := saveLoop env rest u.1 u.2.1
        (r.1, r.2.map (fun x => (x.1, (id, u.2.2) :: x.2)))

/-- The inner loop of the third loop: every member of a group is published. -/
def publishGroup (env : Env) (username : String) :
    List DeploymentInfo → World → Controller → World × Controller
  | [], w, c => (w, c)
  | deployInfo :: rest, w, c =>
    match publishDeployment env w deployInfo username with
    | (w1, some _) =>
      publishGroup env username rest w1
        (c.AddError ("Failed to publish deployment on " ++ deployInfo.Cluster.Name ++ "!"))
    | (w1, none) => publishGroup env username rest w1 c

/-- The third loop of the image branch, over the groups of `deployInfoMap`. -/
def publishLoop (env : Env) (username : String) :
    List (Int × List DeploymentInfo) → World → Controller → World × Controller
  | [], w, c => (w, c)
  | (_, deployInfos) :: rest, w, c =>
    let r := publishGroup env username deployInfos w c
    publishLoop env username rest r.1 r.2

/-- What a run of `UpgradeDeployment` leaves: the world, the controller and
the last value of the local `deployInfoMap` (empty when it was never built). -/
structure UpgradeOutcome where
  world : World
  c : Controller
  deployInfoMap : GoMap Int (List DeploymentInfo)

/-- The handler `UpgradeDeployment`, from the point where the permission
checks have passed. `for ... range deployInfoMap` visits the groups in the
order `env.rangeOrder` gives. -/
def UpgradeDeployment (env : Env) (w : World) (param : UpgradeDeploymentParam) : UpgradeOutcome :=
  let c := Controller.new
  let clusters := Split param.Cluster ','
  match param.Publish with
  | .error e =>
    ⟨w, c.AddErrorAndResponse ("Invalid publish parameter: " ++ e) StatusBadRequest, []⟩
  | .ok publish =>
    match param.TemplateId with
    | .error e =>
      ⟨w, c.AddErrorAndResponse ("Invalid template_id parameter: " ++ e) StatusBadRequest, []⟩
    | .ok templateId =>
      if templateId ≠ 0 ∧ publish = true then
        match templateLoop env param templateId clusters w c with
        | (w1, none) => ⟨w1, c.Panic, []⟩
        | (w1, some c1) => ⟨w1, c1.HandleResponse none, []⟩
      else
        let imageMap := parseImages param.Images
        if imageMap.len = 0 then
          ⟨w,
            c.AddErrorAndResponse ("Invalid images parameter: " ++ param.Images)
              StatusBadRequest,
            []⟩
        else
          match mergeLoop env w param imageMap clusters c [] with
          | none => ⟨w, c.Panic, []⟩
          | some (c1, deployInfoMap) =>
            if c1.Errors.length > 0 then ⟨w, c1.HandleResponse none, deployInfoMap⟩
            else
              match saveLoop env (env.rangeOrder deployInfoMap) w c1 with
              | (w2, none) => ⟨w2, c1.Panic, deployInfoMap⟩
              | (w2, some (c2, saved)) =>
                if publish = false ∨ c2.Errors.length > 0 then
                  ⟨w2, c2.HandleResponse none, saved⟩
                else
                  let r := publishLoop env param.APIKey (env.rangeOrder saved) w2 c2
                  ⟨r.1, r.2.HandleResponse none, saved⟩

/-! ## `ScaleDeployment` -/

/-- The query parameters of `ScaleDeployment` as the handler reads them,
after the three permission checks have passed; `Replicas` is the result of
`c.GetInt("replicas", 0)`. -/
structure ScaleDeploymentParam where
  Deployment : String
  Namespace : String
  Cluster : String
  Replicas : Except String Int
  Description : String
  APIKey : String

/-- The handler `ScaleDeployment`, from the point where the permission
checks have passed. The history row is written by a `defer` registered
after the workload object was read, so it is written last on the two exits
that follow. -/
def ScaleDeployment (env : Env) (w : World) (param : ScaleDeploymentParam) : World × Controller :=
  let c := Controller.new
  match param.Replicas with
  | .error e => (w, c.AddErrorAndResponse ("Invalid replicas parameter: " ++ e) StatusBadRequest)
  | .ok replicas =>
    if replicas > 32 ∨ replicas ≤ 0 then
      (w, c.AddErrorAndResponse
        ("Invalid replicas parameter: " ++ toString replicas ++ " not in range (0,32]")
        StatusBadRequest)
    else if param.Namespace = "" then
      (w, c.AddErrorAndResponse "Invalid namespace parameter" StatusBadRequest)
    else if param.Deployment = "" then
      (w, c.AddErrorAndResponse "Invalid deployment parameter" StatusBadRequest)
    else
      match NamespaceModel.GetByName w param.Namespace with
      | .error _ =>
        (w, c.AddErrorAndResponse ("Failed get namespace by name(" ++ param.Namespace ++ ")")
          StatusBadRequest)
      | .ok ns =>
        match env.unmarshalNamespaceMeta ns.MetaData with
        | .error _ => (w, c.AddErrorAndResponse "" StatusInternalServerError)
        | .ok nsMeta =>
          let ns := { ns with MetaDataObj := nsMeta }
          match DeploymentModel.GetByName w param.Deployment with
          | .error _ =>
            (w, c.AddErrorAndResponse ("Failed get deployment by name(" ++ param.Deployment ++ ")")
              StatusBadRequest)
          | .ok deployResource =>
            match env.unmarshalDeploymentMeta deployResource.MetaData with
            | .error _ => (w, c.AddErrorAndResponse "" StatusInternalServerError)
            | .ok meta =>
              let deployResource := { deployResource with MetaDataObj := meta }
              let w0 := w.call (.Client param.Cluster)
              match env.clientErr w param.Cluster with
              | some _ =>
                (w0, c.AddErrorAndResponse
                  ("Failed to connect to k8s client on " ++ param.Cluster ++ "!")
                  StatusInternalServerError)
              | none =>
                let w1 := w0.call
                  (.GetDeployment param.Cluster param.Deployment ns.MetaDataObj.Namespace)
                match env.getDeployment w0 param.Cluster param.Deployment
                    ns.MetaDataObj.Namespace with
                | .error _ =>
                  (w1, c.AddErrorAndResponse
                    ("Failed to get deployment from k8s client on " ++ param.Cluster ++ "!")
                    StatusInternalServerError)
                | .ok deployObj =>
                  match deployObj.Replicas with
                  | none => (w1, c.Panic)
                  | some original =>
                    let msg := "[APIKey][Original Copies: " ++ toString original ++
                      "][Target Copies: " ++ toString replicas ++ "] " ++ param.Description
                    let publishHistory : PublishHistory :=
                      { PublishType := env.PublishTypeDeployment
                        ResourceId := deployResource.Id
                        ResourceName := deployObj.Name
                        TemplateId := 0
                        Cluster := param.Cluster
                        User := param.APIKey
                        Message := msg
                        Status := 0 }
                    let replicas32 := replicas
                    let deployObj := { deployObj with Replicas := some replicas32 }
                    let w2 := w1.call (.UpdateDeployment param.Cluster deployObj)
                    match env.updateDeploymentErr w1 param.Cluster deployObj with
                    | some _ =>
                      (deferredHistoryAdd env w2 publishHistory,
                        c.AddErrorAndResponse
                          ("Failed to upgrade from k8s client on " ++ param.Cluster ++ "!")
                          StatusInternalServerError)
                    | none =>
                      let w3 :=
                        match DeploymentModel.Update env w2 replicas32 deployResource
                            param.Cluster with
                        | .error _ => w2
                        | .ok w3 => w3
                      (deferredHistoryAdd env w3 publishHistory, c.HandleResponse none)

/-! ## `GetDeploymentStatus` -/

/-- The query parameters of `GetDeploymentStatus`. -/
structure DeploymentStatusParam where
  Deployment : String
  Namespace : String
  Cluster : String

/-- The two steps that set `Healthz`: true, then false when the current pod
count differs from the desired one, then false when a pod of the list has
an empty IP or is not in the phase `v1.PodRunning`. -/
def healthz (current desired : Int) (podInfo : List PodInfo) : Bool :=
  let h := true
  let h := if current ≠ desired then false else h
  podInfo.foldl (fun h p => if p.PodIp = "" ∨ p.State ≠ PodRunning then false else h) h

/-- The handler `GetDeploymentStatus`, from the point where the permission
checks have passed. -/
def GetDeploymentStatus (env : Env) (w : World) (param : DeploymentStatusParam) :
    World × Controller :=
  let c := Controller.new
  match NamespaceModel.GetByName w param.Namespace with
  | .error _ =>
    (w, c.AddErrorAndResponse ("Failed get namespace by name(" ++ param.Namespace ++ ")")
      StatusBadRequest)
  | .ok ns =>
    match env.unmarshalNamespaceMeta ns.MetaData with
    | .error _ => (w, c.AddErrorAndResponse "" StatusInternalServerError)
    | .ok nsMeta =>
      let ns := { ns with MetaDataObj := nsMeta }
      let w0 := w.call (.Manager param.Cluster)
      match env.managerErr w param.Cluster with
      | none =>
        let w1 := w0.call
          (.GetDeploymentDetail param.Cluster param.Deployment ns.MetaDataObj.Namespace)
        match env.getDeploymentDetail w0 param.Cluster param.Deployment
            ns.MetaDataObj.Namespace with
        | .error _ => (w1, c.AddErrorAndResponse "" StatusInternalServerError)
        | .ok deployInfo =>
          let w2 := w1.call
            (.GetPodsByDeployment param.Cluster ns.MetaDataObj.Namespace param.Deployment)
          match env.getPodsByDeployment w1 param.Cluster ns.MetaDataObj.Namespace
              param.Deployment with
          | .error _ => (w2, c.AddErrorAndResponse "" StatusInternalServerError)
          | .ok podInfo =>
            let result : DeploymentStatus :=
              { Pods := podInfo
                Deployment := deployInfo
                Healthz := healthz deployInfo.Pods.Current deployInfo.Pods.Desired podInfo }
            (w2, c.HandleResponse (some result))
      | some _ =>
        (w0, c.AddErrorAndResponse "Failed to get k8s client list!" StatusInternalServerError)

/-! ## Notions of the specification -/

/-- The key and the value of a well-formed segment of the images string: a
segment that splits on `=` into exactly two parts, the second one not empty.
Any other segment gives `none`. -/
def segmentPair (seg : String) : Option (String × String) :=
  match Split seg '=' with
  | [k, v] => if v ≠ "" then some (k, v) else none
  | _ => none

/-- The pre-mutation template id of a cluster of an upgrade request: the id
of the template that is online for the deployment on `cluster`, and 0 when
the cluster does not resolve. -/
def onlineTemplateId (env : Env) (w : World) (param : UpgradeDeploymentParam)
    (cluster : String) : Int :=
  match getOnlineDeploymenetInfo env w param.Deployment param.Namespace cluster 0 with
  | .ok deployInfo => deployInfo.DeploymentTemplete.Id
  | _ => 0

/-- What the first loop of the image branch files for a cluster that
resolves: the pre-mutation template id and the merged `DeploymentInfo`. -/
def mergedPair (env : Env) (w : World) (param : UpgradeDeploymentParam)
    (imageMap : GoMap String String) (cluster : String) : Option (Int × DeploymentInfo) :=
  match getOnlineDeploymenetInfo env w param.Deployment param.Namespace cluster 0 with
  | .ok deployInfo =>
    some (deployInfo.DeploymentTemplete.Id, (mergeCluster env param imageMap deployInfo).1)
  | _ => none

/-- The world of a second run that differs from `w` only in what the
deployment records store as metadata, the text the per-cluster replica
counts are read from: `g` rewrites that text. -/
def withMetaData (g : String → String) (w : World) : World :=
  { w with deployments := w.deployments.map (fun d => { d with MetaData := g d.MetaData }) }

/-! ## Examples -/

/-- A workload with the containers `app:v1` and `sidecar:v2`. -/
def exObject : DeploymentObject :=
  { Name := "web", Namespace := "", Replicas := some 1,
    Containers := [⟨"app", "v1", ""⟩, ⟨"sidecar", "v2", ""⟩], Other := "" }

/-- A serialisation of the fields of a workload object, for the examples. -/
def exMarshal (o : DeploymentObject) : String :=
  o.Name ++ "|" ++ o.Namespace ++ "|" ++ toString (o.Replicas.getD 0) ++ "|" ++
    Join (o.Containers.map (fun v => v.Name ++ ":" ++ v.Image)) ","

/-- An environment in which every call succeeds: the template text `tpl5`
parses to `exObject`, metadata `r` gives two replicas on cluster `a` and
three on cluster `b`. -/
def exEnv : Env :=
  { PublishTypeDeployment := 0
    ReleaseFailure := 0
    ReleaseSuccess := 1
    unmarshalDeployment := fun s =>
      if s = "tpl5" ∨ s = "tpl7" then .ok exObject else .error "bad json"
    marshalDeployment := fun o => .ok (exMarshal o)
    unmarshalNamespaceMeta := fun s => .ok ⟨s⟩
    unmarshalDeploymentMeta := fun _ => .ok ⟨[("a", 2), ("b", 3)]⟩
    marshalDeploymentMeta := fun _ => "r"
    DeploymentPreDeploy := fun o _ _ _ => o
    clientErr := fun _ _ => none
    managerErr := fun _ _ => none
    getDeployment := fun _ _ _ _ => .ok exObject
    getDeploymentDetail := fun _ _ _ _ => .error "no detail"
    getPodsByDeployment := fun _ _ _ _ => .ok []
    createOrUpdateErr := fun _ _ _ => none
    updateDeploymentErr := fun _ _ _ => none
    tplAddErr := fun _ _ => none
    deploymentUpdateErr := fun _ _ => none
    statusAddErr := fun _ _ => none
    historyAddErr := fun _ _ => none
    rangeOrder := fun m => m
    rangeKeys := fun keys => keys }

/-- A world: deployment `web` (id 1) of app 1 in namespace `ns`, clusters
`a` and `b` both on template 5, cluster `d` on template 7. -/
def exWorld : World :=
  { deployments := [⟨1, "web", 1, "r", ⟨[]⟩⟩, ⟨2, "api", 1, "r", ⟨[]⟩⟩]
    apps := [⟨1, ⟨"ns", "kube-ns", ⟨""⟩⟩⟩]
    namespaces := [⟨"ns", "kube-ns", ⟨""⟩⟩]
    clusters := [⟨"a", ""⟩, ⟨"b", ""⟩, ⟨"d", ""⟩]
    templates := [⟨5, 1, "tpl5", "first", "alice"⟩, ⟨7, 1, "tpl7", "other", "alice"⟩,
      ⟨9, 2, "tpl5", "api", "bob"⟩]
    publishStatus := [⟨0, 1, 5, "a"⟩, ⟨0, 1, 5, "b"⟩, ⟨0, 1, 7, "d"⟩]
    publishHistory := []
    deploymentUpdates := []
    clusterCalls := [] }

/-- An upgrade of `web` on the clusters `a` and `b` with the image `v2` for
the container `app`, published at once. -/
def exParam : UpgradeDeploymentParam :=
  { Deployment := "web", Namespace := "ns", Cluster := "a,b", Description := "d",
    Images := "app=v2", Publish := .ok true, TemplateId := .ok 0, APIKey := "key" }

/-- What `getOnlineDeploymenetInfo` resolves for `web` on cluster `a` in
`exWorld`. -/
def exInfoA : DeploymentInfo :=
  { Deployment := ⟨1, "web", 1, "r", ⟨[("a", 2), ("b", 3)]⟩⟩
    DeploymentTemplete := ⟨5, 1, "tpl5", "first", "alice"⟩
    DeploymentObject := { exObject with Namespace := "kube-ns", Replicas := some 2 }
    Cluster := ⟨"a", ""⟩
    Namespace := ⟨"ns", "kube-ns", ⟨"kube-ns"⟩⟩ }

/-- The environment `exEnv` with no cluster reachable. -/
def exEnvDown : Env := { exEnv with clientErr := fun _ _ => some "unreachable" }

/-- The environment `exEnv` with every apply refused by the cluster. -/
def exEnvRefused : Env := { exEnv with createOrUpdateErr := fun _ _ _ => some "refused" }

/-- Two pods of `web`: one running with an IP, one running without. -/
def exPods : List PodInfo :=
  [⟨"web-1", "kube-ns", "Running", "10.0.0.1", "n1", 0, [], []⟩,
   ⟨"web-2", "kube-ns", "Running", "", "n2", 0, [], []⟩]

/-- A deployment detail with two pods wanted and two present. -/
def exDetail : DeploymentDetail :=
  { Name := "web", Namespace := "kube-ns", Labels := [], CreateTime := 0,
    Pods := ⟨2, 2, 2, 0, 0, 0, []⟩ }

/-- The environment `exEnv` with a cluster that reports `exDetail` and `exPods`. -/
def exEnvStatus : Env :=
  { exEnv with
    getDeploymentDetail := fun _ _ _ _ => .ok exDetail
    getPodsByDeployment := fun _ _ _ _ => .ok exPods }

/-- The upgrade `exParam` asked for the clusters `a`, `d` and `b`: two of
them on template 5, one on template 7. -/
def exParam3 : UpgradeDeploymentParam := { exParam with Cluster := "a,d,b" }

/-- The environment `exEnv` reading the replica counts from the metadata
text: the text `r9` asks for nine replicas on cluster `a`, any other text for
two; both ask for three on cluster `b`. -/
def exEnvMeta : Env :=
  { exEnv with
    unmarshalDeploymentMeta := fun s =>
      if s = "r9" then .ok ⟨[("a", 9), ("b", 3)]⟩ else .ok ⟨[("a", 2), ("b", 3)]⟩ }

/-- The world `exWorld` with the metadata text `r9` in every deployment
record: nothing but the replica counts differs. -/
def exWorldNine : World := withMetaData (fun _ => "r9") exWorld

/-- The environment `exEnv` with the keys of a map of strings visited in
the reverse of the order they were put in. -/
def exEnvReversed : Env := { exEnv with rangeKeys := fun keys => keys.reverse }

/-- The environment `exEnvRefused` with a history store that refuses every
insert. -/
def exEnvNoHistory : Env := { exEnvRefused with historyAddErr := fun _ _ => some "read only" }

/-! ## Lemmas on Go maps -/

/-- A map without keys is empty. -/
theorem GoMap.keys_eq_nil {κ ν : Type} (m : GoMap κ ν) (h : ∀ k, k ∉ m.keys) : m = [] := by
  cases m with
  | nil => rfl
  | cons p m => exact absurd (by simp [GoMap.keys]) (h p.1)

section GoMapLemmas

variable {κ ν : Type} [DecidableEq κ]

theorem GoMap.lookup_eq_none_iff (m : GoMap κ ν) (k : κ) :
    m.lookup k = none ↔ k ∉ m.keys := by
  induction m with
  | nil => simp [GoMap.lookup, GoMap.keys]
  | cons p m ih =>
    obtain ⟨k', v⟩ := p
    by_cases h : k' = k
    · simp [GoMap.lookup, GoMap.keys, h]
    · have h2 : ¬ k = k' := fun e => h e.symm
      simpa [GoMap.lookup, GoMap.keys, h, h2] using ih

theorem GoMap.mem_of_lookup_eq_some (m : GoMap κ ν) (k : κ) (v : ν) (h : m.lookup k = some v) :
    (k, v) ∈ m := by
  induction m with
  | nil => simp [GoMap.lookup] at h
  | cons p m ih =>
    obtain ⟨k', v'⟩ := p
    by_cases hk : k' = k
    · simp [GoMap.lookup, hk] at h
      simp [hk, h]
    · simp [GoMap.lookup, hk] at h
      exact List.mem_cons_of_mem _ (ih h)

theorem GoMap.lookup_isSome_of_mem_keys (m : GoMap κ ν) (k : κ) (h : k ∈ m.keys) :
    ∃ v, m.lookup k = some v := by
  cases hl : m.lookup k with
  | none => exact absurd h ((GoMap.lookup_eq_none_iff m k).1 hl)
  | some v => exact ⟨v, rfl⟩

theorem GoMap.mem_keys_delete (m : GoMap κ ν) (k k' : κ) :
    k' ∈ (m.delete k).keys ↔ k' ∈ m.keys ∧ k' ≠ k := by
  induction m with
  | nil => simp [GoMap.delete, GoMap.keys]
  | cons p m ih =>
    obtain ⟨a, v⟩ := p
    by_cases h : a = k
    · subst h
      simp only [GoMap.delete, if_true, ih]
      simp only [GoMap.keys, List.map_cons, List.mem_cons]
      constructor
      · rintro ⟨h1, h2⟩
        exact ⟨Or.inr h1, h2⟩
      · rintro ⟨h1 | h1, h2⟩
        · exact absurd h1 h2
        · exact ⟨h1, h2⟩
    · simp only [GoMap.delete, h, if_false]
      simp only [GoMap.keys, List.map_cons, List.mem_cons] at ih ⊢
      constructor
      · rintro (h1 | h1)
        · exact ⟨Or.inl h1, fun e => h (h1 ▸ e)⟩
        · exact ⟨Or.inr (ih.1 h1).1, (ih.1 h1).2⟩
      · rintro ⟨h1 | h1, h2⟩
        · exact Or.inl h1
        · exact Or.inr (ih.2 ⟨h1, h2⟩)

end GoMapLemmas

/-! ## The image merge -/

/-- The image a container has after the merge with `imageMap`. -/
theorem mergeImages_fst (imageMap : GoMap String String) (cs : List Container)
    (ci : GoMap String String) :
    (mergeImages imageMap cs ci).1 =
      cs.map (fun v =>
        if (imageMap.lookup v.Name).getD "" ≠ "" then
          { v with Image := (imageMap.lookup v.Name).getD "" }
        else v) := by
  induction cs generalizing ci with
  | nil => rfl
  | cons v rest ih =>
    by_cases h : (imageMap.lookup v.Name).getD "" ≠ ""
    · simp only [mergeImages, if_pos h, List.map_cons, ih]
    · simp only [mergeImages, if_neg h, List.map_cons, ih]

/-- The keys left in the working copy: those that no updated container has. -/
theorem mem_keys_mergeImages (imageMap : GoMap String String) (cs : List Container)
    (ci : GoMap String String) (k : String) :
    k ∈ (mergeImages imageMap cs ci).2.keys ↔
      k ∈ ci.keys ∧ ∀ v ∈ cs, (imageMap.lookup v.Name).getD "" ≠ "" → v.Name ≠ k := by
  induction cs generalizing ci with
  | nil => simp [mergeImages]
  | cons v rest ih =>
    by_cases h : (imageMap.lookup v.Name).getD "" ≠ ""
    · simp only [mergeImages, if_pos h, ih, GoMap.mem_keys_delete, List.mem_cons]
      constructor
      · rintro ⟨⟨h1, h2⟩, h3⟩
        refine ⟨h1, ?_⟩
        rintro u (rfl | hu) hu2
        · exact fun e => h2 e.symm
        · exact h3 u hu hu2
      · rintro ⟨h1, h2⟩
        exact ⟨⟨h1, fun e => h2 v (Or.inl rfl) h e.symm⟩, fun u hu => h2 u (Or.inr hu)⟩
    · simp only [mergeImages, if_neg h, ih, List.mem_cons]
      constructor
      · rintro ⟨h1, h2⟩
        refine ⟨h1, ?_⟩
        rintro u (rfl | hu) hu2
        · exact absurd hu2 h
        · exact h2 u hu hu2
      · rintro ⟨h1, h2⟩
        exact ⟨h1, fun u hu => h2 u (Or.inr hu)⟩

/-! ## The history insert -/

/-- A refused insert leaves the world as it was. -/
theorem deferredHistoryAdd_of_error (env : Env) (w : World) (h : PublishHistory) (e : String)
    (he : env.historyAddErr w h = some e) : deferredHistoryAdd env w h = w := by
  simp only [deferredHistoryAdd, PublishHistoryModel.Add, he]

/-- An accepted insert appends the row and changes nothing else. -/
theorem deferredHistoryAdd_of_ok (env : Env) (w : World) (h : PublishHistory)
    (he : env.historyAddErr w h = none) :
    deferredHistoryAdd env w h = { w with publishHistory := w.publishHistory ++ [h] } := by
  simp only [deferredHistoryAdd, PublishHistoryModel.Add, he]

/-- The history insert does not write to the template repository. -/
theorem deferredHistoryAdd_templates (env : Env) (w : World) (h : PublishHistory) :
    (deferredHistoryAdd env w h).templates = w.templates := by
  cases he : env.historyAddErr w h with
  | none => rw [deferredHistoryAdd_of_ok env w h he]
  | some e => rw [deferredHistoryAdd_of_error env w h e he]

/-- The history insert does not write to the status store. -/
theorem deferredHistoryAdd_publishStatus (env : Env) (w : World) (h : PublishHistory) :
    (deferredHistoryAdd env w h).publishStatus = w.publishStatus := by
  cases he : env.historyAddErr w h with
  | none => rw [deferredHistoryAdd_of_ok env w h he]
  | some e => rw [deferredHistoryAdd_of_error env w h e he]

/-- The history store after the insert: one more row when the store accepts
it, the same rows when it refuses. -/
theorem deferredHistoryAdd_publishHistory (env : Env) (w : World) (h : PublishHistory) :
    (env.historyAddErr w h = none →
      (deferredHistoryAdd env w h).publishHistory = w.publishHistory ++ [h]) ∧
    (env.historyAddErr w h ≠ none →
      (deferredHistoryAdd env w h).publishHistory = w.publishHistory) := by
  constructor
  · intro he
    rw [deferredHistoryAdd_of_ok env w h he]
  · intro he
    cases he2 : env.historyAddErr w h with
    | none => exact absurd he2 he
    | some e => rw [deferredHistoryAdd_of_error env w h e he2]

/-- C1: in the first loop of the image branch of `UpgradeDeployment`, for a
cluster that resolves and an override map with non-empty images whose keys
all name a container of the workload object the merge works on (the resolved
object after `DeploymentPreDeploy`), the merge is accepted: the controller
goes on unchanged, so no error is recorded, and the merged `DeploymentInfo`
is filed under the pre-mutation template id. Its container list has the
length, the order, the names and the other fields of the list before; a
container whose name is a key has the mapped image and a container whose
name is not a key keeps its image. -/
theorem UpgradeDeployment_image_merge (env : Env) (w : World) (param : UpgradeDeploymentParam)
    (imageMap : GoMap String String) (cluster : String) (rest : List String) (c : Controller)
    (deployInfoMap : GoMap Int (List DeploymentInfo)) (deployInfo : DeploymentInfo)
    (hres : getOnlineDeploymenetInfo env w param.Deployment param.Namespace cluster 0 =
      .ok deployInfo)
    (himg : ∀ k img, (k, img) ∈ imageMap → img ≠ "")
    (hkeys : ∀ k ∈ imageMap.keys, ∃ v ∈ (preDeploy env deployInfo).Containers, v.Name = k) :
    mergeLoop env w param imageMap (cluster :: rest) c deployInfoMap =
        mergeLoop env w param imageMap rest c
          (deployInfoMap.push deployInfo.DeploymentTemplete.Id
            (mergeCluster env param imageMap deployInfo).1) ∧
      (mergeCluster env param imageMap deployInfo).1.DeploymentObject.Containers.length =
        (preDeploy env deployInfo).Containers.length ∧
      (mergeCluster env param imageMap deployInfo).1.DeploymentObject.Containers.map
          (fun v => v.Name) = (preDeploy env deployInfo).Containers.map (fun v => v.Name) ∧
      ∀ (i : Nat) (v : Container), (preDeploy env deployInfo).Containers[i]? = some v →
        ∃ u : Container,
          (mergeCluster env param imageMap deployInfo).1.DeploymentObject.Containers[i]? = some u ∧
          u.Name = v.Name ∧ u.Other = v.Other ∧
          (∀ img, imageMap.lookup v.Name = some img → u.Image = img) ∧
          (v.Name ∉ imageMap.keys → u.Image = v.Image) := by
  have hci : (mergeCluster env param imageMap deployInfo).2 = [] := by
    apply GoMap.keys_eq_nil
    intro k hk
    simp only [mergeCluster] at hk
    rw [mem_keys_mergeImages] at hk
    obtain ⟨v, hv, hvk⟩ := hkeys k hk.1
    obtain ⟨img, himg2⟩ := GoMap.lookup_isSome_of_mem_keys imageMap k hk.1
    have hne : img ≠ "" := himg k img (GoMap.mem_of_lookup_eq_some imageMap k img himg2)
    refine hk.2 v hv ?_ hvk
    rw [hvk, himg2]
    exact hne
  refine ⟨?_, ?_, ?_, ?_⟩
  · simp only [mergeLoop, hres, hci, GoMap.len, List.length_nil, gt_iff_lt, lt_self_iff_false,
      if_false]
  · simp [mergeCluster, mergeImages_fst]
  · simp only [mergeCluster, mergeImages_fst, List.map_map]
    apply List.map_congr_left
    intro v _
    by_cases h : (imageMap.lookup v.Name).getD "" = "" <;> simp [h]
  · intro i v hv
    simp only [mergeCluster, mergeImages_fst, List.getElem?_map, hv, Option.map_some']
    refine ⟨_, rfl, ?_, ?_, ?_, ?_⟩
    · by_cases h : (imageMap.lookup v.Name).getD "" = "" <;> simp [h]
    · by_cases h : (imageMap.lookup v.Name).getD "" = "" <;> simp [h]
    · intro img himg2
      have hne : img ≠ "" := himg _ img (GoMap.mem_of_lookup_eq_some imageMap _ img himg2)
      simp [himg2, hne]
    · intro hnot
      have := (GoMap.lookup_eq_none_iff imageMap v.Name).2 hnot
      simp [this]

/-- C1 on the example: the override `app=v2` on cluster `a` is accepted and
the first container leaves with the image `v2`. -/
theorem UpgradeDeployment_image_merge_witness :
    getOnlineDeploymenetInfo exEnv exWorld exParam.Deployment exParam.Namespace "a" 0 =
        .ok exInfoA ∧
      mergeLoop exEnv exWorld exParam [("app", "v2")] ["a"] Controller.new [] =
        some (Controller.new, [(5, [(mergeCluster exEnv exParam [("app", "v2")] exInfoA).1])]) ∧
      ∃ u : Container,
        (mergeCluster exEnv exParam [("app", "v2")] exInfoA).1.DeploymentObject.Containers[0]? =
          some u ∧ u.Image = "v2" := by
  have h := UpgradeDeployment_image_merge exEnv exWorld exParam [("app", "v2")] "a" []
    Controller.new [] exInfoA (by rfl) (by simp)
    (by simp [preDeploy, exEnv, exInfoA, exObject, GoMap.keys])
  refine ⟨by rfl, h.1, ?_⟩
  obtain ⟨u, hu, _, _, hi, _⟩ := h.2.2.2 0 ⟨"app", "v1", ""⟩ (by rfl)
  exact ⟨u, hu, hi "v2" (by rfl)⟩

/-! ## Splitting -/

/-- No piece of a split contains the separator. -/
theorem splitChars_not_mem (sep : Char) (cs : List Char) :
    ∀ p ∈ splitChars sep cs, sep ∉ p := by
  induction cs with
  | nil => simp [splitChars]
  | cons c cs ih =>
    by_cases h : c = sep
    · simp only [splitChars, if_pos h, List.mem_cons]
      rintro p (rfl | hp)
      · simp
      · exact ih p hp
    · simp only [splitChars, if_neg h]
      cases hs : splitChars sep cs with
      | nil =>
        simp only [List.mem_singleton]
        rintro p rfl
        simpa using fun e => h e.symm
      | cons q qs =>
        rw [hs] at ih
        simp only [List.mem_cons]
        rintro p (rfl | hp)
        · have := ih q (List.mem_cons_self _ _)
          simp only [List.mem_cons, not_or]
          exact ⟨fun e => h e.symm, this⟩
        · exact ih p (List.mem_cons_of_mem _ hp)

/-- A split has at least one piece. -/
theorem splitChars_ne_nil (sep : Char) (cs : List Char) : splitChars sep cs ≠ [] := by
  cases cs with
  | nil => simp [splitChars]
  | cons c cs =>
    by_cases h : c = sep
    · simp [splitChars, h]
    · simp only [splitChars, if_neg h]
      cases splitChars sep cs <;> simp

/-- Joining the pieces with the separator gives the text back. -/
theorem splitChars_join (sep : Char) (cs : List Char) :
    [sep].intercalate (splitChars sep cs) = cs := by
  induction cs with
  | nil => simp [splitChars, List.intercalate]
  | cons c cs ih =>
    by_cases h : c = sep
    · simp only [splitChars, if_pos h]
      cases hs : splitChars sep cs with
      | nil => exact absurd hs (splitChars_ne_nil sep cs)
      | cons q qs =>
        rw [hs] at ih
        simp only [List.intercalate, List.intersperse, List.flatten_cons, List.nil_append,
          List.singleton_append] at ih ⊢
        rw [ih, h]
    · simp only [splitChars, if_neg h]
      cases hs : splitChars sep cs with
      | nil => exact absurd hs (splitChars_ne_nil sep cs)
      | cons q qs =>
        rw [hs] at ih
        cases qs with
        | nil =>
          simp only [List.intercalate, List.intersperse, List.flatten_cons, List.flatten_nil,
            List.append_nil] at ih ⊢
          rw [ih]
        | cons r rs =>
          simp only [List.intercalate, List.intersperse, List.flatten_cons,
            List.cons_append] at ih ⊢
          rw [ih]

/-- A text without the separator is its own single piece. -/
theorem splitChars_of_not_mem (sep : Char) (cs : List Char) (h : sep ∉ cs) :
    splitChars sep cs = [cs] := by
  induction cs with
  | nil => rfl
  | cons c cs ih =>
    simp only [List.mem_cons, not_or] at h
    have hc : ¬ c = sep := fun e => h.1 e.symm
    simp only [splitChars, if_neg hc, ih h.2]

/-- The first piece ends at the first separator. -/
theorem splitChars_append (sep : Char) (a b : List Char) (h : sep ∉ a) :
    splitChars sep (a ++ sep :: b) = a :: splitChars sep b := by
  induction a with
  | nil => simp [splitChars]
  | cons c cs ih =>
    simp only [List.mem_cons, not_or] at h
    have hc : ¬ c = sep := fun e => h.1 e.symm
    have e : splitChars sep (cs.append (sep :: b)) = cs :: splitChars sep b := ih h.2
    simp only [List.cons_append, splitChars, if_neg hc]
    rw [e]

/-- A text has exactly the two pieces `a` and `b` when it is `a`, the
separator, `b`, with no separator in `a` or `b`. -/
theorem splitChars_eq_pair (sep : Char) (cs a b : List Char) :
    splitChars sep cs = [a, b] ↔ cs = a ++ sep :: b ∧ sep ∉ a ∧ sep ∉ b := by
  constructor
  · intro h
    have hj := splitChars_join sep cs
    have hm := splitChars_not_mem sep cs
    rw [h] at hj hm
    refine ⟨?_, hm a (by simp), hm b (by simp)⟩
    rw [← hj]
    simp [List.intercalate, List.intersperse]
  · rintro ⟨rfl, ha, hb⟩
    rw [splitChars_append sep a b ha, splitChars_of_not_mem sep b hb]

/-- A segment is well formed with key `k` and value `v` exactly when it is
`k=v` with no `=` in `k`, no `=` in `v` and `v` not empty. -/
theorem segmentPair_eq_some_iff (seg k v : String) :
    segmentPair seg = some (k, v) ↔
      seg = k ++ "=" ++ v ∧ '=' ∉ k.data ∧ '=' ∉ v.data ∧ v ≠ "" := by
  unfold segmentPair Split
  constructor
  · intro h
    split at h
    · rename_i k' v' hs
      split at h
      · rename_i hv
        have hkv := Option.some.inj h
        simp only [Prod.mk.injEq] at hkv
        obtain ⟨rfl, rfl⟩ := hkv
        cases hsp : splitChars '=' seg.data with
        | nil => rw [hsp] at hs; simp at hs
        | cons a l =>
          cases l with
          | nil => rw [hsp] at hs; simp at hs
          | cons b l2 =>
            cases l2 with
            | cons c l3 => rw [hsp] at hs; simp at hs
            | nil =>
              rw [hsp] at hs
              simp only [List.map_cons, List.map_nil, List.cons.injEq, and_true] at hs
              obtain ⟨rfl, rfl⟩ := hs
              obtain ⟨h1, h2, h3⟩ := (splitChars_eq_pair '=' seg.data a b).1 hsp
              refine ⟨?_, h2, h3, hv⟩
              apply String.ext
              simp [h1]
      · exact absurd h (by simp)
    · exact absurd h (by simp)
  · rintro ⟨rfl, hk, hv, hne⟩
    have : splitChars '=' (k ++ "=" ++ v).data = [k.data, v.data] := by
      rw [splitChars_eq_pair]
      exact ⟨by simp, hk, hv⟩
    rw [this]
    simp [hne]

/-! ## The override map -/

section GoMapSet

variable {κ ν : Type} [DecidableEq κ]

/-- Reading a map after an assignment. -/
theorem GoMap.lookup_set (m : GoMap κ ν) (k k' : κ) (v : ν) :
    (m.set k v).lookup k' = if k = k' then some v else m.lookup k' := by
  induction m with
  | nil => simp [GoMap.set, GoMap.lookup]
  | cons p m ih =>
    obtain ⟨a, b⟩ := p
    by_cases h : a = k
    · subst h
      by_cases h2 : a = k' <;> simp [GoMap.set, GoMap.lookup, h2]
    · by_cases h2 : a = k'
      · subst h2
        have h3 : ¬ k = a := fun e => h e.symm
        simp [GoMap.set, GoMap.lookup, h, h3]
      · simp [GoMap.set, GoMap.lookup, h, h2, ih]

/-- An assignment never leaves the map empty. -/
theorem GoMap.set_ne_nil (m : GoMap κ ν) (k : κ) (v : ν) : m.set k v ≠ [] := by
  cases m with
  | nil => simp [GoMap.set]
  | cons p m =>
    obtain ⟨a, b⟩ := p
    by_cases h : a = k <;> simp [GoMap.set, h]

/-- After a run of assignments a key holds the value of the last pair with
that key, or what it held before when there is none. -/
theorem GoMap.lookup_foldl_set (pairs : List (κ × ν)) (m : GoMap κ ν) (k : κ) (v : ν) :
    (pairs.foldl (fun m p => m.set p.1 p.2) m).lookup k = some v ↔
      (∃ pre post, pairs = pre ++ (k, v) :: post ∧ ∀ p ∈ post, p.1 ≠ k) ∨
        ((∀ p ∈ pairs, p.1 ≠ k) ∧ m.lookup k = some v) := by
  induction pairs generalizing m with
  | nil => simp
  | cons p ps ih =>
    rw [List.foldl_cons, ih, GoMap.lookup_set]
    constructor
    · rintro (⟨pre, post, rfl, hpost⟩ | ⟨hno, hl⟩)
      · exact Or.inl ⟨p :: pre, post, rfl, hpost⟩
      · by_cases hk : p.1 = k
        · rw [if_pos hk] at hl
          have hv : p.2 = v := Option.some.inj hl
          refine Or.inl ⟨[], ps, ?_, hno⟩
          rw [← hk, ← hv]
          rfl
        · rw [if_neg hk] at hl
          refine Or.inr ⟨?_, hl⟩
          intro q hq
          rcases List.mem_cons.1 hq with rfl | hq
          · exact hk
          · exact hno q hq
    · rintro (⟨pre, post, he, hpost⟩ | ⟨hno, hl⟩)
      · cases pre with
        | nil =>
          simp only [List.nil_append, List.cons.injEq] at he
          obtain ⟨rfl, rfl⟩ := he
          exact Or.inr ⟨hpost, by simp⟩
        | cons q pre =>
          simp only [List.cons_append, List.cons.injEq] at he
          obtain ⟨rfl, rfl⟩ := he
          exact Or.inl ⟨pre, post, rfl, hpost⟩
      · have hk : ¬ p.1 = k := hno p (List.mem_cons_self _ _)
        refine Or.inr ⟨fun q hq => hno q (List.mem_cons_of_mem _ hq), ?_⟩
        rw [if_neg hk]
        exact hl

/-- A run of assignments that is not empty does not leave the map empty. -/
theorem GoMap.foldl_set_ne_nil (pairs : List (κ × ν)) (m : GoMap κ ν)
    (h : pairs ≠ [] ∨ m ≠ []) : pairs.foldl (fun m p => m.set p.1 p.2) m ≠ [] := by
  induction pairs generalizing m with
  | nil => simpa using h
  | cons p ps ih =>
    rw [List.foldl_cons]
    exact ih _ (Or.inr (GoMap.set_ne_nil m p.1 p.2))

end GoMapSet

/-- The loop that fills the override map assigns the pairs of the
well-formed segments in order. -/
theorem imageMapOf_eq_foldl (segs : List String) (m : GoMap String String) :
    imageMapOf segs m = (segs.filterMap segmentPair).foldl (fun m p => m.set p.1 p.2) m := by
  induction segs generalizing m with
  | nil => rfl
  | cons seg rest ih =>
    have hcases : ∀ l : List String, Split seg '=' = l →
        imageMapOf (seg :: rest) m =
          ((seg :: rest).filterMap segmentPair).foldl (fun m p => m.set p.1 p.2) m := by
      intro l hl
      match l, hl with
      | [], hl => simp only [imageMapOf, List.filterMap_cons, segmentPair, hl, ih]
      | [_], hl => simp only [imageMapOf, List.filterMap_cons, segmentPair, hl, ih]
      | [k, v], hl =>
        by_cases hv : v = ""
        · simp only [imageMapOf, List.filterMap_cons, segmentPair, hl, hv, ne_eq,
            not_true_eq_false, if_false, ih]
        · simp only [imageMapOf, List.filterMap_cons, segmentPair, hl, hv, ne_eq,
            not_false_eq_true, if_true, ih, List.foldl_cons]
      | _ :: _ :: _ :: _, hl => simp only [imageMapOf, List.filterMap_cons, segmentPair, hl, ih]
    exact hcases _ rfl

/-- C9: on the image branch of `UpgradeDeployment`, an images string with no
well-formed segment (no comma-separated segment that splits on `=` into
exactly two parts with a non-empty second part) is answered with a bad
request, the world left as it was and nothing resolved; for any other images
string the override map is not empty and holds under a key exactly the
value of the last well-formed segment with that key. -/
theorem UpgradeDeployment_images_validation (env : Env) (w : World)
    (param : UpgradeDeploymentParam) (publish : Bool) (templateId : Int)
    (hp : param.Publish = .ok publish) (ht : param.TemplateId = .ok templateId)
    (hpath : ¬ (templateId ≠ 0 ∧ publish = true)) :
    ((∀ seg ∈ Split param.Images ',', segmentPair seg = none) →
      (UpgradeDeployment env w param).world = w ∧
      (UpgradeDeployment env w param).c =
        { Errors := ["Invalid images parameter: " ++ param.Images]
          response := some (.failure StatusBadRequest
            ["Invalid images parameter: " ++ param.Images]) } ∧
      (UpgradeDeployment env w param).deployInfoMap = []) ∧
    ((∃ seg ∈ Split param.Images ',', segmentPair seg ≠ none) →
      (parseImages param.Images).len ≠ 0 ∧
      ∀ k v, (parseImages param.Images).lookup k = some v ↔
        ∃ pre post, (Split param.Images ',').filterMap segmentPair = pre ++ (k, v) :: post ∧
          ∀ p ∈ post, p.1 ≠ k) := by
  constructor
  · intro hnone
    have hnil : (Split param.Images ',').filterMap segmentPair = [] := by
      rw [List.filterMap_eq_nil_iff]
      exact hnone
    have hmap : parseImages param.Images = [] := by
      rw [parseImages, imageMapOf_eq_foldl, hnil]
      rfl
    simp only [UpgradeDeployment, hp, ht, if_neg hpath, hmap, GoMap.len, List.length_nil,
      if_true, Controller.AddErrorAndResponse, Controller.new, List.nil_append, and_self]
  · rintro ⟨seg, hseg, hsome⟩
    have hne : (Split param.Images ',').filterMap segmentPair ≠ [] := by
      intro e
      rw [List.filterMap_eq_nil_iff] at e
      exact hsome (e seg hseg)
    constructor
    · rw [parseImages, imageMapOf_eq_foldl, GoMap.len]
      intro e
      exact GoMap.foldl_set_ne_nil _ _ (Or.inl hne) (List.length_eq_zero.1 e)
    · intro k v
      rw [parseImages, imageMapOf_eq_foldl, GoMap.lookup_foldl_set]
      simp [GoMap.lookup]

/-- C9 on the examples: the empty images string is refused with nothing
touched; a segment without `=`, with an empty value or with two `=` is not
well formed; in `app=v2,x,app=v3` the later segment wins. -/
theorem UpgradeDeployment_images_validation_witness :
    (UpgradeDeployment exEnv exWorld { exParam with Images := "" }).world = exWorld ∧
      (UpgradeDeployment exEnv exWorld { exParam with Images := "" }).c.response =
        some (.failure 400 ["Invalid images parameter: "]) ∧
      segmentPair "app" = none ∧ segmentPair "app=" = none ∧ segmentPair "a=b=c" = none ∧
      (parseImages "app=v2,x,app=v3").lookup "app" = some "v3" := by
  have h := UpgradeDeployment_images_validation exEnv exWorld { exParam with Images := "" } true 0
    rfl rfl (by decide)
  have h1 := h.1 (by decide)
  refine ⟨h1.1, ?_, by rfl, by rfl, by rfl, by rfl⟩
  rw [h1.2.1]
  rfl

/-! ## Grouping in a Go map -/

/-- The key of an entry is among the keys. -/
theorem GoMap.mem_keys_of_mem {κ ν : Type} (m : GoMap κ ν) (k : κ) (v : ν) (h : (k, v) ∈ m) :
    k ∈ GoMap.keys m :=
  List.mem_map.2 ⟨(k, v), h, rfl⟩

section GoMapPush

variable {κ ν : Type} [DecidableEq κ]

/-- The keys after an assignment. -/
theorem GoMap.mem_keys_set (m : GoMap κ ν) (k k' : κ) (v : ν) :
    k' ∈ GoMap.keys (GoMap.set m k v) ↔ k' = k ∨ k' ∈ GoMap.keys m := by
  induction m with
  | nil => simp [GoMap.set, GoMap.keys]
  | cons p m ih =>
    obtain ⟨a, b⟩ := p
    by_cases h : a = k
    · subst h
      simp [GoMap.set, GoMap.keys]
    · simp only [GoMap.set, if_neg h]
      simp only [GoMap.keys, List.map_cons, List.mem_cons] at ih ⊢
      rw [ih]
      tauto

/-- An assignment keeps the keys distinct. -/
theorem GoMap.nodup_keys_set (m : GoMap κ ν) (k : κ) (v : ν) (h : (GoMap.keys m).Nodup) :
    (GoMap.keys (GoMap.set m k v)).Nodup := by
  induction m with
  | nil => simp [GoMap.set, GoMap.keys]
  | cons p m ih =>
    obtain ⟨a, b⟩ := p
    have h2 : a ∉ GoMap.keys m ∧ (GoMap.keys m).Nodup := by
      simpa [GoMap.keys] using h
    by_cases hk : a = k
    · subst hk
      simpa [GoMap.set, GoMap.keys] using h
    · simp only [GoMap.set, if_neg hk]
      have h3 : a ∉ GoMap.keys (GoMap.set m k v) := by
        rw [GoMap.mem_keys_set]
        rintro (e | e)
        · exact hk e
        · exact h2.1 e
      have h4 := ih h2.2
      simp only [GoMap.keys, List.map_cons, List.nodup_cons] at h3 h4 ⊢
      exact ⟨h3, h4⟩

/-- With distinct keys an entry of the map is what `lookup` finds. -/
theorem GoMap.lookup_eq_some_of_mem (m : GoMap κ ν) (k : κ) (v : ν) (hnd : (GoMap.keys m).Nodup)
    (h : (k, v) ∈ m) : m.lookup k = some v := by
  induction m with
  | nil => simp at h
  | cons p m ih =>
    obtain ⟨a, b⟩ := p
    have h2 : a ∉ GoMap.keys m ∧ (GoMap.keys m).Nodup := by
      simpa [GoMap.keys] using hnd
    rcases List.mem_cons.1 h with e | e
    · simp only [Prod.mk.injEq] at e
      obtain ⟨rfl, rfl⟩ := e
      simp [GoMap.lookup]
    · have hne : ¬ a = k := by
        rintro rfl
        exact h2.1 (List.mem_map.2 ⟨(a, v), e, rfl⟩)
      simp only [GoMap.lookup, if_neg hne]
      exact ih h2.2 e

/-- Reading a map of slices after an append. -/
theorem GoMap.lookup_push (m : GoMap κ (List ν)) (k k' : κ) (v : ν) :
    (m.push k v).lookup k' =
      if k = k' then some ((m.lookup k).getD [] ++ [v]) else m.lookup k' := by
  unfold GoMap.push
  rw [GoMap.lookup_set]

/-- The keys stay distinct along a run of appends. -/
theorem GoMap.nodup_keys_foldl_push (pairs : List (κ × ν)) (m : GoMap κ (List ν))
    (h : (GoMap.keys m).Nodup) :
    (GoMap.keys (pairs.foldl (fun m p => GoMap.push m p.1 p.2) m)).Nodup := by
  induction pairs generalizing m with
  | nil => exact h
  | cons p ps ih =>
    rw [List.foldl_cons]
    exact ih _ (GoMap.nodup_keys_set m _ _ h)

/-- The keys after a run of appends. -/
theorem GoMap.mem_keys_foldl_push (pairs : List (κ × ν)) (m : GoMap κ (List ν)) (k : κ) :
    k ∈ GoMap.keys (pairs.foldl (fun m p => GoMap.push m p.1 p.2) m) ↔
      k ∈ GoMap.keys m ∨ k ∈ pairs.map Prod.fst := by
  induction pairs generalizing m with
  | nil => simp
  | cons p ps ih =>
    rw [List.foldl_cons, ih]
    unfold GoMap.push
    rw [GoMap.mem_keys_set]
    simp only [List.map_cons, List.mem_cons]
    tauto

/-- The slice under a key after a run of appends: what was there, then the
values appended under that key, in order. -/
theorem GoMap.lookup_foldl_push (pairs : List (κ × ν)) (m : GoMap κ (List ν)) (k : κ) :
    ((pairs.foldl (fun m p => GoMap.push m p.1 p.2) m).lookup k).getD [] =
      (m.lookup k).getD [] ++ (pairs.filter (fun p => p.1 = k)).map Prod.snd := by
  induction pairs generalizing m with
  | nil => simp
  | cons p ps ih =>
    rw [List.foldl_cons, ih, GoMap.lookup_push]
    by_cases h : p.1 = k
    · subst h
      simp [List.filter_cons]
    · simp [List.filter_cons, h]

/-- The groups built from the empty map: a value is in the group of a key
exactly when the pair was appended. -/
theorem GoMap.mem_group_iff (pairs : List (κ × ν)) (k : κ) (vs : List ν)
    (h : (k, vs) ∈ pairs.foldl (fun m p => GoMap.push m p.1 p.2) ([] : GoMap κ (List ν))) (v : ν) :
    v ∈ vs ↔ (k, v) ∈ pairs := by
  have hnd := GoMap.nodup_keys_foldl_push pairs ([] : GoMap κ (List ν)) (by simp [GoMap.keys])
  have hl := GoMap.lookup_eq_some_of_mem _ k vs hnd h
  have hg := GoMap.lookup_foldl_push pairs ([] : GoMap κ (List ν)) k
  rw [hl] at hg
  simp only [Option.getD_some, GoMap.lookup, Option.getD_none, List.nil_append] at hg
  rw [hg]
  simp only [List.mem_map, List.mem_filter, decide_eq_true_eq]
  constructor
  · rintro ⟨p, ⟨hp, rfl⟩, rfl⟩
    exact hp
  · intro hp
    exact ⟨(k, v), ⟨hp, rfl⟩, rfl⟩

/-- Every pair appended is found in the group of its key. -/
theorem GoMap.exists_group_of_mem (pairs : List (κ × ν)) (k : κ) (v : ν)
    (h : (k, v) ∈ pairs) :
    ∃ vs, (k, vs) ∈ pairs.foldl (fun m p => GoMap.push m p.1 p.2) ([] : GoMap κ (List ν)) ∧
      v ∈ vs := by
  have hk : k ∈ GoMap.keys (pairs.foldl (fun m p => GoMap.push m p.1 p.2) ([] : GoMap κ (List ν))) := by
    rw [GoMap.mem_keys_foldl_push]
    exact Or.inr (List.mem_map.2 ⟨(k, v), h, rfl⟩)
  obtain ⟨vs, hvs⟩ := GoMap.lookup_isSome_of_mem_keys _ k hk
  have hmem := GoMap.mem_of_lookup_eq_some _ k vs hvs
  exact ⟨vs, hmem, (GoMap.mem_group_iff pairs k vs hmem v).2 h⟩

/-- There are as many groups as distinct keys appended. -/
theorem GoMap.length_foldl_push (pairs : List (κ × ν)) :
    (pairs.foldl (fun m p => GoMap.push m p.1 p.2) ([] : GoMap κ (List ν))).length =
      (pairs.map Prod.fst).dedup.length := by
  have hnd := GoMap.nodup_keys_foldl_push pairs ([] : GoMap κ (List ν)) (by simp [GoMap.keys])
  have hperm : (GoMap.keys (pairs.foldl (fun m p => GoMap.push m p.1 p.2)
      ([] : GoMap κ (List ν)))).Perm (pairs.map Prod.fst).dedup := by
    rw [List.perm_ext_iff_of_nodup hnd (List.nodup_dedup _)]
    intro k
    rw [GoMap.mem_keys_foldl_push, List.mem_dedup]
    simp [GoMap.keys]
  have := hperm.length_eq
  simpa [GoMap.keys] using this

end GoMapPush

/-! ## `getOnlineDeploymenetInfo` -/

/-- The steps behind a successful resolution. -/
theorem getOnlineDeploymenetInfo_ok_inv (env : Env) (w : World) (deployment ns cluster : String)
    (templateId : Int) (deployInfo : DeploymentInfo)
    (h : getOnlineDeploymenetInfo env w deployment ns cluster templateId = .ok deployInfo) :
    ∃ d t o app nsMeta meta cl,
      DeploymentModel.GetByName w deployment = .ok d ∧
      (templateId ≠ 0 → DeploymentTplModel.GetById w templateId = .ok t ∧ d.Id = t.DeploymentId) ∧
      (templateId = 0 → ∃ status,
        PublishStatusModel.GetByCluster w env.PublishTypeDeployment d.Id cluster = .ok status ∧
        DeploymentTplModel.GetById w status.TemplateId = .ok t) ∧
      env.unmarshalDeployment t.Template = .ok o ∧
      AppModel.GetById w d.AppId = .ok app ∧
      env.unmarshalNamespaceMeta app.Namespace.MetaData = .ok nsMeta ∧
      ns = app.Namespace.Name ∧
      env.unmarshalDeploymentMeta d.MetaData = .ok meta ∧
      ClusterModel.GetParsedMetaDataByName w cluster = .ok cl ∧
      deployInfo =
        { Deployment := { d with MetaDataObj := meta }
          DeploymentTemplete := t
          DeploymentObject :=
            { o with
              Namespace := nsMeta.Namespace
              Replicas := some ((meta.Replicas.lookup cluster).getD 0) }
          Cluster := cl
          Namespace := { app.Namespace with MetaDataObj := nsMeta } } := by
  unfold getOnlineDeploymenetInfo at h
  split at h
  · exact absurd h (by simp)
  split at h
  · exact absurd h (by simp)
  split at h
  · exact absurd h (by simp)
  split at h
  · exact absurd h (by simp)
  rename_i d hd
  simp only at h
  split at h
  · exact absurd h (by simp)
  rename_i t ht
  split at h
  · exact absurd h (by simp)
  rename_i o ho
  split at h
  · exact absurd h (by simp)
  rename_i app happ
  split at h
  · exact absurd h (by simp)
  rename_i nsMeta hns
  split at h
  · exact absurd h (by simp)
  rename_i hnsname
  split at h
  · exact absurd h (by simp)
  rename_i meta hmeta
  split at h
  · exact absurd h (by simp)
  rename_i cl hcl
  refine ⟨d, t, o, app, nsMeta, meta, cl, hd, ?_, ?_, ho, happ, hns, ?_, hmeta, hcl, ?_⟩
  · intro hne
    rw [if_pos hne] at ht
    split at ht
    · exact absurd ht (by simp)
    rename_i t' ht'
    split at ht
    · exact absurd ht (by simp)
    rename_i hid
    have := Except.ok.inj ht
    subst this
    exact ⟨ht', not_not.1 hid⟩
  · intro he
    rw [if_neg (not_not.2 he)] at ht
    split at ht
    · exact absurd ht (by simp)
    rename_i status hst
    split at ht
    · exact absurd ht (by simp)
    rename_i t' ht'
    have := Except.ok.inj ht
    subst this
    exact ⟨status, hst, ht'⟩
  · exact not_not.1 hnsname
  · exact (Res.ok.inj h).symm

/-- C6: when `getOnlineDeploymenetInfo` succeeds with template id 0, the
replica count of the returned workload object is the value the replica map
of the deployment record holds for the cluster (zero, the value Go reads
from a map without the key, when it holds none), whatever the object parsed
from the template text carries, and its namespace is the Kubernetes
namespace parsed from the namespace of the owning application. -/
theorem getOnlineDeploymenetInfo_replicas (env : Env) (w : World)
    (deployment ns cluster : String) (deployInfo : DeploymentInfo)
    (h : getOnlineDeploymenetInfo env w deployment ns cluster 0 = .ok deployInfo) :
    ∃ d status t o app nsMeta meta,
      DeploymentModel.GetByName w deployment = .ok d ∧
      PublishStatusModel.GetByCluster w env.PublishTypeDeployment d.Id cluster = .ok status ∧
      DeploymentTplModel.GetById w status.TemplateId = .ok t ∧
      env.unmarshalDeployment t.Template = .ok o ∧
      env.unmarshalDeploymentMeta d.MetaData = .ok meta ∧
      AppModel.GetById w d.AppId = .ok app ∧
      env.unmarshalNamespaceMeta app.Namespace.MetaData = .ok nsMeta ∧
      deployInfo.DeploymentObject.Replicas = some ((meta.Replicas.lookup cluster).getD 0) ∧
      (∀ r, meta.Replicas.lookup cluster = some r →
        deployInfo.DeploymentObject.Replicas = some r) ∧
      deployInfo.DeploymentObject.Namespace = nsMeta.Namespace ∧
      deployInfo.DeploymentObject =
        { o with
          Namespace := nsMeta.Namespace
          Replicas := some ((meta.Replicas.lookup cluster).getD 0) } := by
  obtain ⟨d, t, o, app, nsMeta, meta, cl, hd, _, h0, ho, happ, hns, _, hmeta, _, hinfo⟩ :=
    getOnlineDeploymenetInfo_ok_inv env w deployment ns cluster 0 deployInfo h
  obtain ⟨status, hst, ht⟩ := h0 rfl
  refine ⟨d, status, t, o, app, nsMeta, meta, hd, hst, ht, ho, hmeta, happ, hns, ?_, ?_, ?_, ?_⟩
  · rw [hinfo]
  · intro r hr
    rw [hinfo, hr]
    rfl
  · rw [hinfo]
  · rw [hinfo]

/-- C6 on the example: the template text of `web` parses to an object with
one replica, the record asks for two on cluster `a`, and two is what the
resolved object carries, in the namespace `kube-ns`. -/
theorem getOnlineDeploymenetInfo_replicas_witness :
    getOnlineDeploymenetInfo exEnv exWorld "web" "ns" "a" 0 = .ok exInfoA ∧
      exEnv.unmarshalDeployment "tpl5" = .ok exObject ∧
      exObject.Replicas = some 1 ∧
      exInfoA.DeploymentObject.Replicas = some 2 ∧
      exInfoA.DeploymentObject.Namespace = "kube-ns" := by
  obtain ⟨d, status, t, o, app, nsMeta, meta, _, _, _, _, hmeta, _, hns, _, hr, hn, _⟩ :=
    getOnlineDeploymenetInfo_replicas exEnv exWorld "web" "ns" "a" exInfoA (by rfl)
  have hm : meta = ⟨[("a", 2), ("b", 3)]⟩ := (Except.ok.inj hmeta).symm
  refine ⟨by rfl, by rfl, rfl, hr 2 (by rw [hm]; rfl), by rfl⟩

/-! ## Templates of another deployment -/

/-- A template of another deployment is refused before anything else is read. -/
theorem getOnlineDeploymenetInfo_no_permission (env : Env) (w : World)
    (deployment ns cluster : String) (templateId : Int) (d : Deployment)
    (t : DeploymentTemplate) (hne : templateId ≠ 0)
    (hd : DeploymentModel.GetByName w deployment = .ok d)
    (ht : DeploymentTplModel.GetById w templateId = .ok t) (hown : t.DeploymentId ≠ d.Id) :
    ∃ msg, getOnlineDeploymenetInfo env w deployment ns cluster templateId = .error msg := by
  unfold getOnlineDeploymenetInfo
  split
  · exact ⟨_, rfl⟩
  split
  · exact ⟨_, rfl⟩
  split
  · exact ⟨_, rfl⟩
  have hown2 : d.Id ≠ t.DeploymentId := fun e => hown e.symm
  simp only [hd, if_pos hne, ht, if_pos hown2]
  exact ⟨_, rfl⟩

/-- The loop of the explicit-template branch when every resolution fails. -/
theorem templateLoop_all_errors (env : Env) (param : UpgradeDeploymentParam) (templateId : Int)
    (w : World)
    (herr : ∀ cluster, ∃ msg,
      getOnlineDeploymenetInfo env w param.Deployment param.Namespace cluster templateId =
        .error msg)
    (clusters : List String) (c : Controller) :
    templateLoop env param templateId clusters w c =
      (w, some { c with
        Errors := c.Errors ++
          clusters.map (fun cluster => "Failed to get online deployment on " ++ cluster ++ "!") }) := by
  induction clusters generalizing c with
  | nil => simp [templateLoop]
  | cons cluster rest ih =>
    obtain ⟨msg, hmsg⟩ := herr cluster
    simp only [templateLoop, hmsg, ih, Controller.AddError, List.map_cons, List.append_assoc,
      List.singleton_append]

/-- C7: an explicit nonzero template id whose template exists and belongs
to another deployment than the one resolved by name makes
`getOnlineDeploymenetInfo` return an error and no `DeploymentInfo`, for every
cluster; on the explicit-template branch of `UpgradeDeployment` every
requested cluster is therefore skipped with its error recorded and the
world is left as it was: no history row, no status change, no call to a
cluster. -/
theorem UpgradeDeployment_cross_template (env : Env) (w : World)
    (param : UpgradeDeploymentParam) (templateId : Int) (d : Deployment)
    (t : DeploymentTemplate) (hne : templateId ≠ 0)
    (hd : DeploymentModel.GetByName w param.Deployment = .ok d)
    (ht : DeploymentTplModel.GetById w templateId = .ok t) (hown : t.DeploymentId ≠ d.Id) :
    (∀ ns cluster, ∃ msg,
      getOnlineDeploymenetInfo env w param.Deployment ns cluster templateId = .error msg) ∧
    (param.Publish = .ok true → param.TemplateId = .ok templateId →
      (UpgradeDeployment env w param).world = w ∧
      (UpgradeDeployment env w param).c.Errors =
        (Split param.Cluster ',').map
          (fun cluster => "Failed to get online deployment on " ++ cluster ++ "!") ∧
      (UpgradeDeployment env w param).c.response =
        some (.handled (UpgradeDeployment env w param).c.Errors none)) := by
  have herr : ∀ ns cluster, ∃ msg,
      getOnlineDeploymenetInfo env w param.Deployment ns cluster templateId = .error msg :=
    fun ns cluster =>
      getOnlineDeploymenetInfo_no_permission env w param.Deployment ns cluster templateId d t hne
        hd ht hown
  refine ⟨herr, ?_⟩
  intro hp htid
  have hloop := templateLoop_all_errors env param templateId w (herr param.Namespace)
    (Split param.Cluster ',') Controller.new
  simp only [UpgradeDeployment, hp, htid, hne, ne_eq, not_false_eq_true, and_self, if_true,
    hloop]
  simp [Controller.HandleResponse, Controller.new]

/-- C7 on the example: template 9 belongs to deployment `api`, so an
upgrade of `web` with it on the clusters `a` and `b` changes nothing. -/
theorem UpgradeDeployment_cross_template_witness :
    DeploymentModel.GetByName exWorld "web" = .ok ⟨1, "web", 1, "r", ⟨[]⟩⟩ ∧
      DeploymentTplModel.GetById exWorld 9 = .ok ⟨9, 2, "tpl5", "api", "bob"⟩ ∧
      (UpgradeDeployment exEnv exWorld { exParam with TemplateId := .ok 9 }).world = exWorld ∧
      (UpgradeDeployment exEnv exWorld { exParam with TemplateId := .ok 9 }).c.Errors =
        ["Failed to get online deployment on a!", "Failed to get online deployment on b!"] := by
  have h := (UpgradeDeployment_cross_template exEnv exWorld { exParam with TemplateId := .ok 9 }
    9 ⟨1, "web", 1, "r", ⟨[]⟩⟩ ⟨9, 2, "tpl5", "api", "bob"⟩ (by decide) (by rfl) (by rfl)
    (by decide)).2 (by rfl) (by rfl)
  exact ⟨by rfl, by rfl, h.1, h.2.1.trans (by rfl)⟩

/-! ## The first loop of the image branch -/

/-- The only panic of the resolution is the missing app of the deployment. -/
theorem getOnlineDeploymenetInfo_panic_inv (env : Env) (w : World)
    (deployment ns cluster : String) (templateId : Int)
    (h : getOnlineDeploymenetInfo env w deployment ns cluster templateId = .panic) :
    ∃ d e, DeploymentModel.GetByName w deployment = .ok d ∧
      AppModel.GetById w d.AppId = .error e := by
  unfold getOnlineDeploymenetInfo at h
  split at h
  · exact absurd h (by simp)
  split at h
  · exact absurd h (by simp)
  split at h
  · exact absurd h (by simp)
  split at h
  · exact absurd h (by simp)
  rename_i d hd
  simp only at h
  split at h
  · exact absurd h (by simp)
  split at h
  · exact absurd h (by simp)
  split at h
  · rename_i e happ
    exact ⟨d, e, hd, happ⟩
  split at h
  · exact absurd h (by simp)
  split at h
  · exact absurd h (by simp)
  split at h
  · exact absurd h (by simp)
  split at h
  · exact absurd h (by simp)
  · exact absurd h (by simp)

/-- When one cluster of a request resolves, no cluster of the request panics. -/
theorem getOnlineDeploymenetInfo_no_panic (env : Env) (w : World)
    (deployment ns cluster : String) (templateId : Int) (deployInfo : DeploymentInfo)
    (h : getOnlineDeploymenetInfo env w deployment ns cluster templateId = .ok deployInfo)
    (ns2 cluster2 : String) (templateId2 : Int) :
    getOnlineDeploymenetInfo env w deployment ns2 cluster2 templateId2 ≠ .panic := by
  intro hp
  obtain ⟨d, _, _, app, _, _, _, hd, _, _, _, happ, _⟩ :=
    getOnlineDeploymenetInfo_ok_inv env w deployment ns cluster templateId deployInfo h
  obtain ⟨d2, e, hd2, happ2⟩ :=
    getOnlineDeploymenetInfo_panic_inv env w deployment ns2 cluster2 templateId2 hp
  rw [hd] at hd2
  have := Except.ok.inj hd2
  subst this
  rw [happ] at happ2
  exact absurd happ2 (by simp)

/-- The first loop without a panic: it only adds errors, and it adds the
error of every cluster whose override map keeps a key after the merge. -/
theorem mergeLoop_errors (env : Env) (w : World) (param : UpgradeDeploymentParam)
    (imageMap : GoMap String String) (clusters : List String)
    (hnp : ∀ cluster ∈ clusters,
      getOnlineDeploymenetInfo env w param.Deployment param.Namespace cluster 0 ≠ .panic)
    (c : Controller) (m : GoMap Int (List DeploymentInfo)) :
    ∃ errs m2,
      mergeLoop env w param imageMap clusters c m =
        some ({ c with Errors := c.Errors ++ errs }, m2) ∧
      ∀ cluster ∈ clusters, ∀ deployInfo,
        getOnlineDeploymenetInfo env w param.Deployment param.Namespace cluster 0 =
          .ok deployInfo →
        (mergeCluster env param imageMap deployInfo).2.len > 0 →
        ("Deployment template don't have container: " ++
          Join (env.rangeKeys (mergeCluster env param imageMap deployInfo).2.keys) ",") ∈
            errs := by
  induction clusters generalizing c m with
  | nil => exact ⟨[], m, by simp [mergeLoop], by simp⟩
  | cons cluster rest ih =>
    have hnp2 : ∀ cl ∈ rest,
        getOnlineDeploymenetInfo env w param.Deployment param.Namespace cl 0 ≠ .panic :=
      fun cl hcl => hnp cl (List.mem_cons_of_mem _ hcl)
    cases hres : getOnlineDeploymenetInfo env w param.Deployment param.Namespace cluster 0 with
    | panic => exact absurd hres (hnp cluster (List.mem_cons_self _ _))
    | error msg =>
      obtain ⟨errs, m2, h1, h2⟩ := ih hnp2
        (c.AddError ("Failed to get online deployment info on " ++ cluster)) m
      refine ⟨("Failed to get online deployment info on " ++ cluster) :: errs, m2, ?_, ?_⟩
      · simp only [mergeLoop, hres]
        rw [h1]
        simp [Controller.AddError]
      · intro cl hcl info hinfo hlen
        rcases List.mem_cons.1 hcl with rfl | hcl
        · rw [hres] at hinfo
          exact absurd hinfo (by simp)
        · exact List.mem_cons_of_mem _ (h2 cl hcl info hinfo hlen)
    | ok deployInfo =>
      by_cases hlen : (mergeCluster env param imageMap deployInfo).2.len > 0
      · obtain ⟨errs, m2, h1, h2⟩ := ih hnp2
          (c.AddError ("Deployment template don't have container: " ++
            Join (env.rangeKeys (mergeCluster env param imageMap deployInfo).2.keys) ",")) m
        refine ⟨("Deployment template don't have container: " ++
            Join (env.rangeKeys (mergeCluster env param imageMap deployInfo).2.keys) ",") ::
              errs, m2, ?_, ?_⟩
        · simp only [mergeLoop, hres, if_pos hlen]
          rw [h1]
          simp [Controller.AddError]
        · intro cl hcl info hinfo hlen2
          rcases List.mem_cons.1 hcl with rfl | hcl
          · rw [hres] at hinfo
            have := Res.ok.inj hinfo
            subst this
            exact List.mem_cons_self _ _
          · exact List.mem_cons_of_mem _ (h2 cl hcl info hinfo hlen2)
      · obtain ⟨errs, m2, h1, h2⟩ := ih hnp2 c
          (m.push deployInfo.DeploymentTemplete.Id (mergeCluster env param imageMap deployInfo).1)
        refine ⟨errs, m2, ?_, ?_⟩
        · simp only [mergeLoop, hres, if_neg hlen, h1]
        · intro cl hcl info hinfo hlen2
          rcases List.mem_cons.1 hcl with rfl | hcl
          · rw [hres] at hinfo
            have := Res.ok.inj hinfo
            subst this
            exact absurd hlen2 hlen
          · exact h2 cl hcl info hinfo hlen2

/-- The image branch when the first loop ends with errors: nothing is written. -/
theorem UpgradeDeployment_of_merge_errors (env : Env) (w : World)
    (param : UpgradeDeploymentParam) (publish : Bool) (templateId : Int) (c1 : Controller)
    (m : GoMap Int (List DeploymentInfo))
    (hp : param.Publish = .ok publish) (ht : param.TemplateId = .ok templateId)
    (hpath : ¬ (templateId ≠ 0 ∧ publish = true))
    (hmap : ¬ (parseImages param.Images).len = 0)
    (h1 : mergeLoop env w param (parseImages param.Images) (Split param.Cluster ',')
      Controller.new [] = some (c1, m))
    (herr : c1.Errors.length > 0) :
    UpgradeDeployment env w param = ⟨w, c1.HandleResponse none, m⟩ := by
  unfold UpgradeDeployment
  simp only [hp, ht, if_neg hpath, if_neg hmap]
  rw [h1]
  simp only [if_pos herr]

/-- C3: on the image branch of `UpgradeDeployment`, when some requested
cluster resolves and a key of the override map is the name of no container
of its workload object (the object the merge works on), an error is
recorded for that cluster that lists the keys left over, that key among
them, in the order the range over the working copy visits them, and the call
answers with the errors collected and the world exactly as it was: no
template row added, no deployment record updated, no history row, no status
change and no call to any cluster, for any cluster of the request. -/
theorem UpgradeDeployment_unknown_container (env : Env) (w : World)
    (param : UpgradeDeploymentParam) (publish : Bool) (templateId : Int) (cluster k : String)
    (deployInfo : DeploymentInfo)
    (hp : param.Publish = .ok publish) (ht : param.TemplateId = .ok templateId)
    (hpath : ¬ (templateId ≠ 0 ∧ publish = true))
    (hrange : ∀ keys, (env.rangeKeys keys).Perm keys)
    (hc : cluster ∈ Split param.Cluster ',')
    (hres : getOnlineDeploymenetInfo env w param.Deployment param.Namespace cluster 0 =
      .ok deployInfo)
    (hk : k ∈ (parseImages param.Images).keys)
    (hno : ∀ v ∈ (preDeploy env deployInfo).Containers, v.Name ≠ k) :
    (UpgradeDeployment env w param).world = w ∧
    (∃ keys : List String,
      keys.Perm (mergeCluster env param (parseImages param.Images) deployInfo).2.keys ∧
      k ∈ keys ∧
      ("Deployment template don't have container: " ++ Join keys ",") ∈
        (UpgradeDeployment env w param).c.Errors) ∧
    (UpgradeDeployment env w param).c.response =
      some (.handled (UpgradeDeployment env w param).c.Errors none) := by
  have hkeep : k ∈ (mergeCluster env param (parseImages param.Images) deployInfo).2.keys := by
    simp only [mergeCluster]
    rw [mem_keys_mergeImages]
    exact ⟨hk, fun v hv _ => hno v hv⟩
  have hlen : (mergeCluster env param (parseImages param.Images) deployInfo).2.len > 0 := by
    obtain ⟨img, himg⟩ := GoMap.lookup_isSome_of_mem_keys _ k hkeep
    exact List.length_pos_of_mem (GoMap.mem_of_lookup_eq_some _ k img himg)
  have hmap : ¬ (parseImages param.Images).len = 0 := by
    intro e
    have : parseImages param.Images = [] := List.length_eq_zero.1 e
    rw [this] at hk
    simp [GoMap.keys] at hk
  obtain ⟨errs, m2, h1, h2⟩ := mergeLoop_errors env w param (parseImages param.Images)
    (Split param.Cluster ',')
    (fun cl _ => getOnlineDeploymenetInfo_no_panic env w param.Deployment param.Namespace cluster
      0 deployInfo hres param.Namespace cl 0)
    Controller.new []
  have hmem := h2 cluster hc deployInfo hres hlen
  have herrs : errs.length > 0 := List.length_pos_of_mem hmem
  have hlen2 : ({ Controller.new with Errors := Controller.new.Errors ++ errs } :
      Controller).Errors.length > 0 := by
    simpa [Controller.new] using herrs
  rw [UpgradeDeployment_of_merge_errors env w param publish templateId _ m2 hp ht hpath hmap h1
    hlen2]
  refine ⟨rfl, ⟨_, hrange _, (hrange _).mem_iff.2 hkeep, ?_⟩, rfl⟩
  simpa [Controller.HandleResponse, Controller.new] using hmem

/-- C3 on the example: the override `g1=x,g2=y` names no container of
`web`; with the keys visited in reverse the upgrade is refused for both
clusters with the keys listed as `g2,g1`, and nothing is written. -/
theorem UpgradeDeployment_unknown_container_witness :
    getOnlineDeploymenetInfo exEnvReversed exWorld "web" "ns" "a" 0 = .ok exInfoA ∧
      (UpgradeDeployment exEnvReversed exWorld { exParam with Images := "g1=x,g2=y" }).world =
        exWorld ∧
      (UpgradeDeployment exEnvReversed exWorld { exParam with Images := "g1=x,g2=y" }).c.Errors =
        ["Deployment template don't have container: g2,g1",
         "Deployment template don't have container: g2,g1"] :=
  ⟨by rfl,
    (UpgradeDeployment_unknown_container exEnvReversed exWorld
      { exParam with Images := "g1=x,g2=y" } true 0 "a" "g1" exInfoA rfl rfl (by decide)
      (fun keys => List.reverse_perm keys) (by decide) (by rfl) (by decide) (by decide)).1,
    by rfl⟩

/-! ## The loops of the image branch when nothing fails -/

/-- The cluster descriptor found by name has that name. -/
theorem ClusterModel.name_of_get (w : World) (name : String) (cl : Cluster)
    (h : ClusterModel.GetParsedMetaDataByName w name = .ok cl) : cl.Name = name := by
  unfold ClusterModel.GetParsedMetaDataByName at h
  split at h
  · rename_i c hc
    have := Except.ok.inj h
    subst this
    simpa using List.find?_some hc
  · exact absurd h (by simp)

/-- A resolved `DeploymentInfo` is for the cluster asked for. -/
theorem getOnlineDeploymenetInfo_cluster (env : Env) (w : World)
    (deployment ns cluster : String) (templateId : Int) (deployInfo : DeploymentInfo)
    (h : getOnlineDeploymenetInfo env w deployment ns cluster templateId = .ok deployInfo) :
    deployInfo.Cluster.Name = cluster := by
  obtain ⟨d, t, o, app, nsMeta, meta, cl, _, _, _, _, _, _, _, _, hcl, hinfo⟩ :=
    getOnlineDeploymenetInfo_ok_inv env w deployment ns cluster templateId deployInfo h
  rw [hinfo]
  exact ClusterModel.name_of_get w cluster cl hcl

/-- The first loop when every cluster resolves and merges: no error is
added and every cluster is filed under its pre-mutation template id. -/
theorem mergeLoop_ok (env : Env) (w : World) (param : UpgradeDeploymentParam)
    (imageMap : GoMap String String) (clusters : List String)
    (hres : ∀ cluster ∈ clusters, ∃ deployInfo,
      getOnlineDeploymenetInfo env w param.Deployment param.Namespace cluster 0 =
        .ok deployInfo ∧
      (mergeCluster env param imageMap deployInfo).2 = [])
    (c : Controller) (m : GoMap Int (List DeploymentInfo)) :
    mergeLoop env w param imageMap clusters c m =
      some (c, (clusters.filterMap (mergedPair env w param imageMap)).foldl
        (fun m p => GoMap.push m p.1 p.2) m) := by
  induction clusters generalizing m with
  | nil => rfl
  | cons cluster rest ih =>
    obtain ⟨di, hdi, hci⟩ := hres cluster (List.mem_cons_self _ _)
    have hp : mergedPair env w param imageMap cluster =
        some (di.DeploymentTemplete.Id, (mergeCluster env param imageMap di).1) := by
      simp only [mergedPair, hdi]
    simp only [mergeLoop, hdi, hci, GoMap.len, List.length_nil, gt_iff_lt, lt_self_iff_false,
      if_false, List.filterMap_cons, hp, List.foldl_cons]
    exact ih (fun cl hcl => hres cl (List.mem_cons_of_mem _ hcl)) _

/-- The pairs filed by the first loop, seen from a cluster. -/
theorem mem_mergedPairs (env : Env) (w : World) (param : UpgradeDeploymentParam)
    (imageMap : GoMap String String) (clusters : List String) (k : Int)
    (info : DeploymentInfo) :
    (k, info) ∈ clusters.filterMap (mergedPair env w param imageMap) ↔
      ∃ cluster ∈ clusters, ∃ deployInfo,
        getOnlineDeploymenetInfo env w param.Deployment param.Namespace cluster 0 =
          .ok deployInfo ∧
        k = deployInfo.DeploymentTemplete.Id ∧
        info = (mergeCluster env param imageMap deployInfo).1 := by
  simp only [List.mem_filterMap]
  constructor
  · rintro ⟨cluster, hc, hp⟩
    unfold mergedPair at hp
    split at hp
    · rename_i di hdi
      have := Option.some.inj hp
      simp only [Prod.mk.injEq] at this
      exact ⟨cluster, hc, di, hdi, this.1.symm, this.2.symm⟩
    · exact absurd hp (by simp)
  · rintro ⟨cluster, hc, di, hdi, rfl, rfl⟩
    exact ⟨cluster, hc, by simp only [mergedPair, hdi]⟩

/-- The keys filed by the first loop are the pre-mutation template ids. -/
theorem map_fst_mergedPairs (env : Env) (w : World) (param : UpgradeDeploymentParam)
    (imageMap : GoMap String String) (clusters : List String)
    (hres : ∀ cluster ∈ clusters, ∃ deployInfo,
      getOnlineDeploymenetInfo env w param.Deployment param.Namespace cluster 0 =
        .ok deployInfo ∧
      (mergeCluster env param imageMap deployInfo).2 = []) :
    (clusters.filterMap (mergedPair env w param imageMap)).map Prod.fst =
      clusters.map (onlineTemplateId env w param) := by
  induction clusters with
  | nil => rfl
  | cons cluster rest ih =>
    obtain ⟨di, hdi, _⟩ := hres cluster (List.mem_cons_self _ _)
    have hp : mergedPair env w param imageMap cluster =
        some (di.DeploymentTemplete.Id, (mergeCluster env param imageMap di).1) := by
      simp only [mergedPair, hdi]
    have ho : onlineTemplateId env w param cluster = di.DeploymentTemplete.Id := by
      simp only [onlineTemplateId, hdi]
    simp only [List.filterMap_cons, hp, List.map_cons, ho,
      ih (fun cl hcl => hres cl (List.mem_cons_of_mem _ hcl))]

/-! ### The template repository -/

/-- Every id in use is below the next id. -/
theorem lt_nextTemplateId (ts : List DeploymentTemplate) (t : DeploymentTemplate)
    (h : t ∈ ts) : t.Id < nextTemplateId ts := by
  unfold nextTemplateId
  induction ts with
  | nil => simp at h
  | cons a ts ih =>
    simp only [List.map_cons, List.foldr_cons]
    rcases List.mem_cons.1 h with rfl | h
    · have := le_max_left t.Id (List.foldr max 0 (List.map (fun t => t.Id) ts))
      omega
    · have := ih h
      have := le_max_right a.Id (List.foldr max 0 (List.map (fun t => t.Id) ts))
      omega

/-- The next id is positive. -/
theorem nextTemplateId_pos (ts : List DeploymentTemplate) : 0 < nextTemplateId ts := by
  unfold nextTemplateId
  have : 0 ≤ List.foldr max 0 (List.map (fun t => t.Id) ts) := by
    induction ts with
    | nil => simp
    | cons a ts ih =>
      simp only [List.map_cons, List.foldr_cons]
      exact le_trans ih (le_max_right _ _)
  omega

/-- After a row is added under the next id, the next id is one more. -/
theorem nextTemplateId_append (ts : List DeploymentTemplate) (m : DeploymentTemplate) :
    nextTemplateId (ts ++ [{ m with Id := nextTemplateId ts }]) = nextTemplateId ts + 1 := by
  have hpos := nextTemplateId_pos ts
  have key : ∀ (l : List Int) (x : Int), 0 ≤ x →
      List.foldr max 0 (l ++ [x]) = max (List.foldr max 0 l) x := by
    intro l x hx
    induction l with
    | nil => simp [hx]
    | cons a l ih =>
      simp only [List.cons_append, List.foldr_cons, ih, max_assoc]
  unfold nextTemplateId at hpos ⊢
  rw [List.map_append, List.map_cons, List.map_nil]
  show List.foldr max 0 (List.map (fun t => t.Id) ts ++
    [List.foldr max 0 (List.map (fun t => t.Id) ts) + 1]) + 1 = _
  rw [key _ _ (by omega)]
  have : max (List.foldr max 0 (List.map (fun t => t.Id) ts))
      (List.foldr max 0 (List.map (fun t => t.Id) ts) + 1) =
      List.foldr max 0 (List.map (fun t => t.Id) ts) + 1 := by
    apply max_eq_right
    omega
  rw [this]

/-- A `DeploymentInfo` with the id of its template set. -/
theorem updateLoop_ok (env : Env) (newtmplId : Int)
    (hupd : ∀ w2 d, env.deploymentUpdateErr w2 d = none)
    (deployInfos : List DeploymentInfo) (w : World) (c : Controller) :
    ∃ w2, updateLoop env newtmplId deployInfos w c =
        (w2, c, deployInfos.map (fun deployInfo =>
          { deployInfo with
            DeploymentTemplete := { deployInfo.DeploymentTemplete with Id := newtmplId } })) ∧
      w2.templates = w.templates := by
  induction deployInfos generalizing w with
  | nil => exact ⟨w, rfl, rfl⟩
  | cons di rest ih =>
    obtain ⟨w2, h1, h2⟩ := ih
      { w with
        deployments := w.deployments.map
          (fun r => if r.Id = di.Deployment.Id then di.Deployment else r)
        deploymentUpdates := w.deploymentUpdates ++ [di.Deployment] }
    refine ⟨w2, ?_, h2⟩
    simp only [updateLoop, DeploymentModel.UpdateById, hupd, h1, List.map_cons]

/-- The second loop when nothing fails: one row is added per group, under
consecutive new ids in the order the groups are visited, and every member
of a group leaves with the id of the row of its group. -/
theorem saveLoop_ok (env : Env)
    (hmarshal : ∀ o, ∃ s, env.marshalDeployment o = .ok s)
    (hadd : ∀ w2 t, env.tplAddErr w2 t = none)
    (hupd : ∀ w2 d, env.deploymentUpdateErr w2 d = none)
    (gs : List (Int × List DeploymentInfo)) (hne : ∀ g ∈ gs, g.2 ≠ [])
    (hnd : (gs.map Prod.fst).Nodup) (w : World) (c : Controller) :
    ∃ w2 saved rows,
      saveLoop env gs w c = (w2, some (c, saved)) ∧
      w2.templates = w.templates ++ rows ∧
      rows.map (fun t => t.Id) =
        (List.range gs.length).map (fun (i : Nat) => nextTemplateId w.templates + (i : Int)) ∧
      saved.map Prod.fst = gs.map Prod.fst ∧
      ∀ k infos2, (k, infos2) ∈ saved →
        ∃ infos, (k, infos) ∈ gs ∧
          infos2.map (fun i => i.Cluster) = infos.map (fun i => i.Cluster) ∧
          ∀ info ∈ infos2, info.DeploymentTemplete.Id =
            nextTemplateId w.templates + ((gs.map Prod.fst).indexOf k : Int) := by
  induction gs generalizing w with
  | nil => exact ⟨w, [], [], rfl, by simp, by simp, rfl, by simp⟩
  | cons g rest ih =>
    obtain ⟨id, infos⟩ := g
    cases infos with
    | nil => exact absurd rfl (hne (id, []) (List.mem_cons_self _ _))
    | cons di others =>
      obtain ⟨s, hs⟩ := hmarshal di.DeploymentObject
      have hnd2 : id ∉ rest.map Prod.fst ∧ (rest.map Prod.fst).Nodup := by
        simpa using hnd
      obtain ⟨wu, hu, hut⟩ := updateLoop_ok env (nextTemplateId w.templates) hupd
        ({ di with DeploymentTemplete := { di.DeploymentTemplete with Template := s } } :: others)
        { w with templates := w.templates ++
            [{ ({ di.DeploymentTemplete with Template := s } : DeploymentTemplate) with
              Id := nextTemplateId w.templates }] } c
      obtain ⟨w2, saved, rows, h1, h2, h3, h4, h5⟩ :=
        ih (fun g hg => hne g (List.mem_cons_of_mem _ hg)) hnd2.2 wu
      have hnext : nextTemplateId wu.templates = nextTemplateId w.templates + 1 := by
        rw [hut]
        exact nextTemplateId_append w.templates _
      refine ⟨w2,
        (id, List.map (fun deployInfo : DeploymentInfo =>
          { deployInfo with
            DeploymentTemplete :=
              { deployInfo.DeploymentTemplete with Id := nextTemplateId w.templates } })
          ({ di with DeploymentTemplete := { di.DeploymentTemplete with Template := s } } ::
            others)) :: saved,
        { ({ di.DeploymentTemplete with Template := s } : DeploymentTemplate) with
          Id := nextTemplateId w.templates } :: rows, ?_, ?_, ?_, ?_, ?_⟩
      · simp only [saveLoop, hs, DeploymentTplModel.Add, hadd, hu, h1, Option.map_some']
      · rw [h2, hut]
        simp
      · rw [List.map_cons, h3, hnext, List.length_cons, List.range_succ_eq_map, List.map_cons,
          List.map_map]
        simp only [Nat.cast_zero, add_zero, List.cons.injEq, true_and]
        apply List.map_congr_left
        intro i _
        simp only [Function.comp, Nat.cast_succ]
        omega
      · simp only [List.map_cons, h4]
      · intro k infos2 hk
        rcases List.mem_cons.1 hk with e | hk
        · simp only [Prod.mk.injEq] at e
          obtain ⟨rfl, rfl⟩ := e
          refine ⟨di :: others, List.mem_cons_self _ _, ?_, ?_⟩
          · simp [List.map_map, Function.comp]
          · intro info hinfo
            simp only [List.map_cons, List.indexOf_cons_self, Nat.cast_zero, add_zero]
            rcases List.mem_cons.1 hinfo with rfl | hinfo
            · rfl
            · obtain ⟨x, _, rfl⟩ := List.mem_map.1 hinfo
              rfl
        · obtain ⟨infos, hg, hcl, hid⟩ := h5 k infos2 hk
          refine ⟨infos, List.mem_cons_of_mem _ hg, hcl, ?_⟩
          intro info hinfo
          have hkne : id ≠ k := by
            rintro rfl
            exact hnd2.1 (List.mem_map.2 ⟨(id, infos), hg, rfl⟩)
          rw [hid info hinfo, hnext, List.map_cons, List.indexOf_cons_ne _ hkne]
          simp only [Nat.succ_eq_add_one, Nat.cast_add, Nat.cast_one]
          omega

/-! ### Publishing leaves the template repository alone -/

/-- The publisher does not write to the template repository. -/
theorem publishDeployment_templates (env : Env) (w : World) (deployInfo : DeploymentInfo)
    (username : String) :
    (publishDeployment env w deployInfo username).1.templates = w.templates := by
  cases hc : env.clientErr w deployInfo.Cluster.Name with
  | some e =>
    simp only [publishDeployment, hc]
    rfl
  | none =>
    cases ha : env.createOrUpdateErr (w.call (.Client deployInfo.Cluster.Name))
        deployInfo.Cluster.Name deployInfo.DeploymentObject with
    | some e =>
      simp only [publishDeployment, hc, ha, deferredHistoryAdd_templates]
      rfl
    | none =>
      cases hs : env.statusAddErr
          ((w.call (.Client deployInfo.Cluster.Name)).call
            (.CreateOrUpdateDeployment deployInfo.Cluster.Name deployInfo.DeploymentObject))
          { PublishType := env.PublishTypeDeployment, ResourceId := deployInfo.Deployment.Id,
            TemplateId := deployInfo.DeploymentTemplete.Id, Cluster := deployInfo.Cluster.Name } with
      | some e =>
        simp only [publishDeployment, hc, ha, PublishStatusModel.Add, hs,
          deferredHistoryAdd_templates]
        rfl
      | none =>
        simp only [publishDeployment, hc, ha, PublishStatusModel.Add, hs,
          deferredHistoryAdd_templates]
        rfl

/-- The inner publish loop does not write to the template repository. -/
theorem publishGroup_templates (env : Env) (username : String)
    (deployInfos : List DeploymentInfo) (w : World) (c : Controller) :
    (publishGroup env username deployInfos w c).1.templates = w.templates := by
  induction deployInfos generalizing w c with
  | nil => rfl
  | cons di rest ih =>
    have h := publishDeployment_templates env w di username
    unfold publishGroup
    split
    · rename_i w1 e he
      rw [he] at h
      rw [ih, h]
    · rename_i w1 he
      rw [he] at h
      rw [ih, h]

/-- The third loop does not write to the template repository. -/
theorem publishLoop_templates (env : Env) (username : String)
    (gs : List (Int × List DeploymentInfo)) (w : World) (c : Controller) :
    (publishLoop env username gs w c).1.templates = w.templates := by
  induction gs generalizing w c with
  | nil => rfl
  | cons g rest ih =>
    obtain ⟨id, infos⟩ := g
    simp only [publishLoop]
    rw [ih, publishGroup_templates]

/-- The image branch when the first two loops end without an error: the
final `deployInfoMap` is what the second loop leaves and the templates are
those after the second loop, published or not. -/
theorem UpgradeDeployment_of_saved (env : Env) (w w2 : World)
    (param : UpgradeDeploymentParam) (publish : Bool) (templateId : Int)
    (m saved : GoMap Int (List DeploymentInfo))
    (hp : param.Publish = .ok publish) (ht : param.TemplateId = .ok templateId)
    (hpath : ¬ (templateId ≠ 0 ∧ publish = true))
    (hmap : ¬ (parseImages param.Images).len = 0)
    (h1 : mergeLoop env w param (parseImages param.Images) (Split param.Cluster ',')
      Controller.new [] = some (Controller.new, m))
    (h2 : saveLoop env (env.rangeOrder m) w Controller.new =
      (w2, some (Controller.new, saved))) :
    (UpgradeDeployment env w param).deployInfoMap = saved ∧
      (UpgradeDeployment env w param).world.templates = w2.templates := by
  unfold UpgradeDeployment
  simp only [hp, ht, if_neg hpath, if_neg hmap]
  rw [h1]
  have h0 : ¬ Controller.new.Errors.length > 0 := by simp [Controller.new]
  simp only [if_neg h0]
  rw [h2]
  cases publish with
  | false => simp
  | true =>
    simp only [Bool.true_eq_false, false_or, if_neg h0]
    exact ⟨trivial, publishLoop_templates env _ _ _ _⟩

/-- C2: on the image branch of `UpgradeDeployment`, when every requested
cluster resolves and merges without error, the serialisation succeeds and
every store write succeeds, whatever order the groups are visited in: the
template rows added are as many as the distinct pre-mutation template ids
of the requested clusters, they have new and pairwise different ids, every
`DeploymentInfo` left in `deployInfoMap` is filed under the pre-mutation id
of its cluster and carries the id of the row `newId` gives to that
pre-mutation id, every requested cluster is there, and different
pre-mutation ids get different rows. -/
theorem UpgradeDeployment_grouping (env : Env) (w : World) (param : UpgradeDeploymentParam)
    (publish : Bool) (templateId : Int)
    (hp : param.Publish = .ok publish) (ht : param.TemplateId = .ok templateId)
    (hpath : ¬ (templateId ≠ 0 ∧ publish = true))
    (hmap : (parseImages param.Images).len ≠ 0)
    (hres : ∀ cluster ∈ Split param.Cluster ',', ∃ deployInfo,
      getOnlineDeploymenetInfo env w param.Deployment param.Namespace cluster 0 =
        .ok deployInfo ∧
      (mergeCluster env param (parseImages param.Images) deployInfo).2 = [])
    (hmarshal : ∀ o, ∃ s, env.marshalDeployment o = .ok s)
    (hadd : ∀ w2 t, env.tplAddErr w2 t = none)
    (hupd : ∀ w2 d, env.deploymentUpdateErr w2 d = none)
    (horder : ∀ m, (env.rangeOrder m).Perm m) :
    ∃ (rows : List DeploymentTemplate) (newId : Int → Int),
      (UpgradeDeployment env w param).world.templates = w.templates ++ rows ∧
      rows.length =
        ((Split param.Cluster ',').map (onlineTemplateId env w param)).dedup.length ∧
      (∀ row ∈ rows, ∀ t ∈ w.templates, row.Id ≠ t.Id) ∧
      (rows.map (fun t => t.Id)).Nodup ∧
      (∀ cluster ∈ Split param.Cluster ',',
        (∃ row ∈ rows, row.Id = newId (onlineTemplateId env w param cluster)) ∧
        ∃ infos info,
          (onlineTemplateId env w param cluster, infos) ∈
            (UpgradeDeployment env w param).deployInfoMap ∧
          info ∈ infos ∧ info.Cluster.Name = cluster) ∧
      (∀ k infos info, (k, infos) ∈ (UpgradeDeployment env w param).deployInfoMap →
        info ∈ infos →
        info.Cluster.Name ∈ Split param.Cluster ',' ∧
        k = onlineTemplateId env w param info.Cluster.Name ∧
        info.DeploymentTemplete.Id = newId k) ∧
      (∀ c1 ∈ Split param.Cluster ',', ∀ c2 ∈ Split param.Cluster ',',
        onlineTemplateId env w param c1 ≠ onlineTemplateId env w param c2 →
        newId (onlineTemplateId env w param c1) ≠ newId (onlineTemplateId env w param c2)) := by
  -- the first loop
  have h1 := mergeLoop_ok env w param (parseImages param.Images) (Split param.Cluster ',') hres
    Controller.new []
  have hmnd := GoMap.nodup_keys_foldl_push
    ((Split param.Cluster ',').filterMap (mergedPair env w param (parseImages param.Images)))
    ([] : GoMap Int (List DeploymentInfo)) (by simp [GoMap.keys])
  have hfst := map_fst_mergedPairs env w param (parseImages param.Images)
    (Split param.Cluster ',') hres
  generalize hpairs :
    (Split param.Cluster ',').filterMap (mergedPair env w param (parseImages param.Images)) =
      pairs at h1 hmnd hfst
  generalize hm : pairs.foldl (fun m p => GoMap.push m p.1 p.2)
    ([] : GoMap Int (List DeploymentInfo)) = m at h1 hmnd
  have hmem_pairs : ∀ k info, (k, info) ∈ pairs ↔
      ∃ cluster ∈ Split param.Cluster ',', ∃ deployInfo,
        getOnlineDeploymenetInfo env w param.Deployment param.Namespace cluster 0 =
          .ok deployInfo ∧
        k = deployInfo.DeploymentTemplete.Id ∧
        info = (mergeCluster env param (parseImages param.Images) deployInfo).1 := by
    intro k info
    rw [← hpairs]
    exact mem_mergedPairs env w param (parseImages param.Images) (Split param.Cluster ',') k info
  have hgroup : ∀ k vs, (k, vs) ∈ m → ∀ v, v ∈ vs ↔ (k, v) ∈ pairs := by
    intro k vs hk v
    rw [← hm] at hk
    exact GoMap.mem_group_iff pairs k vs hk v
  have hexists : ∀ k v, (k, v) ∈ pairs → ∃ vs, (k, vs) ∈ m ∧ v ∈ vs := by
    intro k v hk
    rw [← hm]
    exact GoMap.exists_group_of_mem pairs k v hk
  have hlen : m.length = (pairs.map Prod.fst).dedup.length := by
    rw [← hm]
    exact GoMap.length_foldl_push pairs
  -- the order of the second loop
  have hperm := horder m
  generalize hgs : env.rangeOrder m = gs at hperm
  have hgnd : (gs.map Prod.fst).Nodup := (hperm.map Prod.fst).nodup_iff.2 hmnd
  have hgne : ∀ g ∈ gs, g.2 ≠ [] := by
    intro g hg hnil
    have hgm : (g.1, g.2) ∈ m := hperm.mem_iff.1 hg
    have hk : g.1 ∈ GoMap.keys m := GoMap.mem_keys_of_mem m g.1 g.2 hgm
    rw [← hm, GoMap.mem_keys_foldl_push] at hk
    rcases hk with hk | hk
    · simp [GoMap.keys] at hk
    · obtain ⟨p, hp1, hp2⟩ := List.mem_map.1 hk
      have : p.2 ∈ g.2 := (hgroup g.1 g.2 hgm p.2).2 (by rw [← hp2]; exact hp1)
      rw [hnil] at this
      simp at this
  have huniq : ∀ k a b, (k, a) ∈ gs → (k, b) ∈ gs → a = b := by
    intro k a b ha hb
    have h3 := GoMap.lookup_eq_some_of_mem gs k a hgnd ha
    have h4 := GoMap.lookup_eq_some_of_mem gs k b hgnd hb
    rw [h3] at h4
    exact Option.some.inj h4
  -- the second loop
  obtain ⟨w2, saved, rows, hs1, hs2, hs3, hs4, hs5⟩ :=
    saveLoop_ok env hmarshal hadd hupd gs hgne hgnd w Controller.new
  rw [← hgs] at hs1
  obtain ⟨hout1, hout2⟩ := UpgradeDeployment_of_saved env w w2 param publish templateId m saved
    hp ht hpath hmap h1 hs1
  rw [hout1, hout2]
  have hpre : ∀ cluster deployInfo,
      getOnlineDeploymenetInfo env w param.Deployment param.Namespace cluster 0 =
        .ok deployInfo →
      onlineTemplateId env w param cluster = deployInfo.DeploymentTemplete.Id := by
    intro cluster di hdi
    simp only [onlineTemplateId, hdi]
  have hkey : ∀ cluster ∈ Split param.Cluster ',',
      onlineTemplateId env w param cluster ∈ gs.map Prod.fst := by
    intro cluster hc
    obtain ⟨di, hdi, _⟩ := hres cluster hc
    obtain ⟨vs, hvs, _⟩ := hexists di.DeploymentTemplete.Id _
      ((hmem_pairs _ _).2 ⟨cluster, hc, di, hdi, rfl, rfl⟩)
    rw [hpre cluster di hdi]
    exact List.mem_map.2 ⟨_, hperm.mem_iff.2 hvs, rfl⟩
  have hrow : ∀ row ∈ rows, ∃ i : Nat, i < gs.length ∧
      row.Id = nextTemplateId w.templates + (i : Int) := by
    intro row hr
    have : row.Id ∈ rows.map (fun t => t.Id) := List.mem_map.2 ⟨row, hr, rfl⟩
    rw [hs3] at this
    obtain ⟨i, hi, he⟩ := List.mem_map.1 this
    exact ⟨i, List.mem_range.1 hi, he.symm⟩
  refine ⟨rows, fun k => nextTemplateId w.templates + ((gs.map Prod.fst).indexOf k : Int),
    hs2, ?_, ?_, ?_, ?_, ?_, ?_⟩
  · have : rows.length = gs.length := by
      have := congrArg List.length hs3
      simpa using this
    rw [this, hperm.length_eq, hlen, hfst]
  · intro row hr t ht2 e
    obtain ⟨i, _, hi⟩ := hrow row hr
    have := lt_nextTemplateId w.templates t ht2
    omega
  · rw [hs3]
    apply List.Nodup.map _ (List.nodup_range _)
    intro i j hij
    simp only at hij
    omega
  · intro cluster hc
    constructor
    · have hidx : (gs.map Prod.fst).indexOf (onlineTemplateId env w param cluster) <
          gs.length := by
        have := List.indexOf_lt_length.2 (hkey cluster hc)
        simpa using this
      have : nextTemplateId w.templates +
          (((gs.map Prod.fst).indexOf (onlineTemplateId env w param cluster) : Nat) : Int) ∈
          rows.map (fun t => t.Id) := by
        rw [hs3]
        exact List.mem_map.2 ⟨_, List.mem_range.2 hidx, rfl⟩
      obtain ⟨row, hr, he⟩ := List.mem_map.1 this
      exact ⟨row, hr, he⟩
    · obtain ⟨di, hdi, _⟩ := hres cluster hc
      obtain ⟨vs, hvs, hv⟩ := hexists di.DeploymentTemplete.Id _
        ((hmem_pairs _ _).2 ⟨cluster, hc, di, hdi, rfl, rfl⟩)
      have hk2 : di.DeploymentTemplete.Id ∈ saved.map Prod.fst := by
        rw [hs4]
        exact List.mem_map.2 ⟨_, hperm.mem_iff.2 hvs, rfl⟩
      obtain ⟨⟨k, infos2⟩, hin, hk3⟩ := List.mem_map.1 hk2
      simp only at hk3
      subst hk3
      obtain ⟨infos, hg, hcl, _⟩ := hs5 _ infos2 hin
      have hvs2 := huniq _ _ _ hg (hperm.mem_iff.2 hvs)
      subst hvs2
      have : (mergeCluster env param (parseImages param.Images) di).1.Cluster ∈
          infos2.map (fun i => i.Cluster) := by
        rw [hcl]
        exact List.mem_map.2 ⟨_, hv, rfl⟩
      obtain ⟨info, hinfo, he⟩ := List.mem_map.1 this
      refine ⟨infos2, info, ?_, hinfo, ?_⟩
      · rw [hpre cluster di hdi]
        exact hin
      · rw [he]
        exact getOnlineDeploymenetInfo_cluster env w _ _ cluster 0 di hdi
  · intro k infos2 info hin hinfo
    obtain ⟨infos, hg, hcl, hid⟩ := hs5 k infos2 hin
    have : info.Cluster ∈ infos.map (fun i => i.Cluster) := by
      rw [← hcl]
      exact List.mem_map.2 ⟨_, hinfo, rfl⟩
    obtain ⟨info1, hinfo1, he⟩ := List.mem_map.1 this
    have hgm : (k, infos) ∈ m := hperm.mem_iff.1 hg
    obtain ⟨cluster, hc, di, hdi, hk, hmerged⟩ :=
      (hmem_pairs k info1).1 ((hgroup k infos hgm info1).1 hinfo1)
    have hname : info.Cluster.Name = cluster := by
      rw [← he, hmerged]
      exact getOnlineDeploymenetInfo_cluster env w _ _ cluster 0 di hdi
    refine ⟨?_, ?_, hid info hinfo⟩
    · rw [hname]
      exact hc
    · rw [hname, hpre cluster di hdi]
      exact hk
  · intro c1 hc1 c2 hc2 hne e
    apply hne
    have : (gs.map Prod.fst).indexOf (onlineTemplateId env w param c1) =
        (gs.map Prod.fst).indexOf (onlineTemplateId env w param c2) := by
      simp only at e
      omega
    exact (List.indexOf_inj (hkey c1 hc1) (hkey c2 hc2)).1 this

/-- C2 on the example: the clusters `a` and `b` are on template 5 and `d`
is on template 7, so two rows are added, one for each, and the members of a
group carry the id of the row of their group. -/
theorem UpgradeDeployment_grouping_witness :
    ∃ (rows : List DeploymentTemplate) (newId : Int → Int),
      (UpgradeDeployment exEnv exWorld exParam3).world.templates = exWorld.templates ++ rows ∧
      rows.length = 2 ∧
      newId 5 ≠ newId 7 ∧
      ∀ k infos info, (k, infos) ∈ (UpgradeDeployment exEnv exWorld exParam3).deployInfoMap →
        info ∈ infos → info.DeploymentTemplete.Id = newId k := by
  have hsplit : Split exParam3.Cluster ',' = ["a", "d", "b"] := by rfl
  obtain ⟨rows, newId, h1, h2, _, _, _, h6, h7⟩ :=
    UpgradeDeployment_grouping exEnv exWorld exParam3 true 0 rfl rfl (by decide) (by decide)
      (by
        intro cluster hc
        rw [hsplit] at hc
        simp only [List.mem_cons, List.mem_singleton, List.not_mem_nil, or_false] at hc
        rcases hc with rfl | rfl | rfl
        · exact ⟨_, rfl, rfl⟩
        · exact ⟨_, rfl, rfl⟩
        · exact ⟨_, rfl, rfl⟩)
      (fun o => ⟨_, rfl⟩) (fun _ _ => rfl) (fun _ _ => rfl) (fun m => List.Perm.refl m)
  refine ⟨rows, newId, h1, h2.trans (by rfl), ?_, fun k infos info hk hi => (h6 k infos info hk hi).2.2⟩
  exact h7 "a" (by rw [hsplit]; simp) "d" (by rw [hsplit]; simp) (by decide)

/-! ## What the new template rows store -/

/-- The second loop when nothing fails: every row added stores the
serialisation of the workload object of the first member of a group, under
the id the loop gives to that group. -/
theorem saveLoop_rows (env : Env)
    (hmarshal : ∀ o, ∃ s, env.marshalDeployment o = .ok s)
    (hadd : ∀ w2 t, env.tplAddErr w2 t = none)
    (hupd : ∀ w2 d, env.deploymentUpdateErr w2 d = none)
    (gs : List (Int × List DeploymentInfo)) (hne : ∀ g ∈ gs, g.2 ≠ [])
    (hnd : (gs.map Prod.fst).Nodup) (w : World) (c : Controller) :
    ∃ w2 saved rows,
      saveLoop env gs w c = (w2, some (c, saved)) ∧
      w2.templates = w.templates ++ rows ∧
      ∀ row ∈ rows, ∃ k deployInfo others,
        (k, deployInfo :: others) ∈ gs ∧
        env.marshalDeployment deployInfo.DeploymentObject = .ok row.Template ∧
        row.DeploymentId = deployInfo.DeploymentTemplete.DeploymentId ∧
        row.Id = nextTemplateId w.templates + ((gs.map Prod.fst).indexOf k : Int) := by
  induction gs generalizing w with
  | nil => exact ⟨w, [], [], rfl, by simp, by simp⟩
  | cons g rest ih =>
    obtain ⟨id, infos⟩ := g
    cases infos with
    | nil => exact absurd rfl (hne (id, []) (List.mem_cons_self _ _))
    | cons di others =>
      obtain ⟨s, hs⟩ := hmarshal di.DeploymentObject
      have hnd2 : id ∉ rest.map Prod.fst ∧ (rest.map Prod.fst).Nodup := by
        simpa using hnd
      obtain ⟨wu, hu, hut⟩ := updateLoop_ok env (nextTemplateId w.templates) hupd
        ({ di with DeploymentTemplete := { di.DeploymentTemplete with Template := s } } :: others)
        { w with templates := w.templates ++
            [{ ({ di.DeploymentTemplete with Template := s } : DeploymentTemplate) with
              Id := nextTemplateId w.templates }] } c
      obtain ⟨w2, saved, rows, h1, h2, h3⟩ :=
        ih (fun g hg => hne g (List.mem_cons_of_mem _ hg)) hnd2.2 wu
      have hnext : nextTemplateId wu.templates = nextTemplateId w.templates + 1 := by
        rw [hut]
        exact nextTemplateId_append w.templates _
      refine ⟨w2,
        (id, List.map (fun deployInfo : DeploymentInfo =>
          { deployInfo with
            DeploymentTemplete :=
              { deployInfo.DeploymentTemplete with Id := nextTemplateId w.templates } })
          ({ di with DeploymentTemplete := { di.DeploymentTemplete with Template := s } } ::
            others)) :: saved,
        { ({ di.DeploymentTemplete with Template := s } : DeploymentTemplate) with
          Id := nextTemplateId w.templates } :: rows, ?_, ?_, ?_⟩
      · simp only [saveLoop, hs, DeploymentTplModel.Add, hadd, hu, h1, Option.map_some']
      · rw [h2, hut]
        simp
      · intro row hr
        rcases List.mem_cons.1 hr with rfl | hr
        · refine ⟨id, di, others, List.mem_cons_self _ _, hs, rfl, ?_⟩
          simp only [List.map_cons, List.indexOf_cons_self, Nat.cast_zero, add_zero]
        · obtain ⟨k, di2, others2, hg, hm, hd, hid⟩ := h3 row hr
          refine ⟨k, di2, others2, List.mem_cons_of_mem _ hg, hm, hd, ?_⟩
          have hkne : id ≠ k := by
            rintro rfl
            exact hnd2.1 (List.mem_map.2 ⟨(id, di2 :: others2), hg, rfl⟩)
          rw [hid, hnext, List.map_cons, List.indexOf_cons_ne _ hkne]
          simp only [Nat.succ_eq_add_one, Nat.cast_add, Nat.cast_one]
          omega

/-- The first member of a group is what the first loop filed for the first
requested cluster with the pre-mutation template id of the group. -/
theorem first_of_group (env : Env) (w : World) (param : UpgradeDeploymentParam)
    (imageMap : GoMap String String) (clusters : List String)
    (hres : ∀ cluster ∈ clusters, ∃ deployInfo,
      getOnlineDeploymenetInfo env w param.Deployment param.Namespace cluster 0 =
        .ok deployInfo ∧
      (mergeCluster env param imageMap deployInfo).2 = [])
    (k : Int) (first : DeploymentInfo) (others : List DeploymentInfo)
    (h : ((clusters.filterMap (mergedPair env w param imageMap)).filter
      (fun p => p.1 = k)).map Prod.snd = first :: others) :
    ∃ before cluster after deployInfo,
      clusters = before ++ cluster :: after ∧
      (∀ c ∈ before, onlineTemplateId env w param c ≠ k) ∧
      onlineTemplateId env w param cluster = k ∧
      getOnlineDeploymenetInfo env w param.Deployment param.Namespace cluster 0 =
        .ok deployInfo ∧
      first = (mergeCluster env param imageMap deployInfo).1 := by
  induction clusters with
  | nil => simp at h
  | cons c rest ih =>
    obtain ⟨di, hdi, _⟩ := hres c (List.mem_cons_self _ _)
    have hp : mergedPair env w param imageMap c =
        some (di.DeploymentTemplete.Id, (mergeCluster env param imageMap di).1) := by
      simp only [mergedPair, hdi]
    have ho : onlineTemplateId env w param c = di.DeploymentTemplete.Id := by
      simp only [onlineTemplateId, hdi]
    rw [List.filterMap_cons, hp] at h
    by_cases hk : di.DeploymentTemplete.Id = k
    · simp only [List.filter_cons, hk, decide_True, if_true, List.map_cons,
        List.cons.injEq] at h
      exact ⟨[], c, rest, di, rfl, by simp, by rw [ho, hk], hdi, h.1.symm⟩
    · simp only [List.filter_cons, hk, decide_False, Bool.false_eq_true, if_false] at h
      obtain ⟨before, cluster, after, info, h1, h2, h3, h4, h5⟩ :=
        ih (fun cl hcl => hres cl (List.mem_cons_of_mem _ hcl)) h
      refine ⟨c :: before, cluster, after, info, by rw [h1]; rfl, ?_, h3, h4, h5⟩
      intro c2 hc2
      rcases List.mem_cons.1 hc2 with rfl | hc2
      · rw [ho]
        exact hk
      · exact h2 c2 hc2

/-! ### Two runs that differ in the replica counts only -/

/-- The record found by name in the second run is the record of the first
run with its metadata rewritten. -/
theorem GetByName_withMetaData (g : String → String) (w : World) (name : String) :
    DeploymentModel.GetByName (withMetaData g w) name =
      match DeploymentModel.GetByName w name with
      | .ok d => .ok { d with MetaData := g d.MetaData }
      | .error e => .error e := by
  unfold DeploymentModel.GetByName withMetaData
  simp only [List.find?_map]
  have : ((fun d : Deployment => decide (d.Name = name)) ∘
      fun d : Deployment => { d with MetaData := g d.MetaData }) =
      fun d : Deployment => decide (d.Name = name) := rfl
  rw [this]
  cases List.find? (fun d : Deployment => decide (d.Name = name)) w.deployments <;> rfl

/-- Two resolutions that differ only in the replica counts stored in the
deployment record give the same template, cluster and namespace, and the
same workload object up to its replica field. -/
theorem getOnlineDeploymenetInfo_withMetaData (env : Env) (w : World) (g : String → String)
    (deployment ns cluster : String) (templateId : Int) (i1 i2 : DeploymentInfo)
    (h1 : getOnlineDeploymenetInfo env w deployment ns cluster templateId = .ok i1)
    (h2 : getOnlineDeploymenetInfo env (withMetaData g w) deployment ns cluster templateId =
      .ok i2) :
    i2.DeploymentTemplete = i1.DeploymentTemplete ∧
    i2.Cluster = i1.Cluster ∧
    i2.Namespace = i1.Namespace ∧
    i2.Deployment.Id = i1.Deployment.Id ∧
    i2.DeploymentObject =
      { i1.DeploymentObject with Replicas := i2.DeploymentObject.Replicas } := by
  obtain ⟨d1, t1, o1, app1, nsMeta1, meta1, cl1, hd1, ht1, hs1, ho1, happ1, hns1, _, _, hcl1,
    hi1⟩ := getOnlineDeploymenetInfo_ok_inv env w deployment ns cluster templateId i1 h1
  obtain ⟨d2, t2, o2, app2, nsMeta2, meta2, cl2, hd2, ht2, hs2, ho2, happ2, hns2, _, _, hcl2,
    hi2⟩ := getOnlineDeploymenetInfo_ok_inv env (withMetaData g w) deployment ns cluster
      templateId i2 h2
  rw [GetByName_withMetaData, hd1] at hd2
  have hd : d2 = { d1 with MetaData := g d1.MetaData } := (Except.ok.inj hd2).symm
  subst hd
  have etpl : ∀ id, DeploymentTplModel.GetById (withMetaData g w) id =
      DeploymentTplModel.GetById w id := fun _ => rfl
  have est : ∀ a b c, PublishStatusModel.GetByCluster (withMetaData g w) a b c =
      PublishStatusModel.GetByCluster w a b c := fun _ _ _ => rfl
  have eapp : ∀ id, AppModel.GetById (withMetaData g w) id = AppModel.GetById w id :=
    fun _ => rfl
  have ecl : ∀ n, ClusterModel.GetParsedMetaDataByName (withMetaData g w) n =
      ClusterModel.GetParsedMetaDataByName w n := fun _ => rfl
  have ht : t2 = t1 := by
    by_cases hz : templateId = 0
    · obtain ⟨st1, hst1, hg1⟩ := hs1 hz
      obtain ⟨st2, hst2, hg2⟩ := hs2 hz
      rw [est] at hst2
      have hst : Except.ok st2 = Except.ok st1 := hst2.symm.trans hst1
      have := Except.ok.inj hst
      subst this
      rw [etpl, hg1] at hg2
      exact (Except.ok.inj hg2).symm
    · have a1 := (ht1 hz).1
      have a2 := (ht2 hz).1
      rw [etpl, a1] at a2
      exact (Except.ok.inj a2).symm
  subst ht
  rw [ho1] at ho2
  have ho : o2 = o1 := (Except.ok.inj ho2).symm
  subst ho
  rw [eapp] at happ2
  have happ : Except.ok app2 = Except.ok app1 := happ2.symm.trans happ1
  have := Except.ok.inj happ
  subst this
  rw [hns1] at hns2
  have hnm : nsMeta2 = nsMeta1 := (Except.ok.inj hns2).symm
  subst hnm
  rw [ecl, hcl1] at hcl2
  have hc : cl2 = cl1 := (Except.ok.inj hcl2).symm
  subst hc
  rw [hi1, hi2]
  exact ⟨rfl, rfl, rfl, rfl, rfl⟩

/-- C11 (as stated it fails): two runs of `UpgradeDeployment` on the same
request that differ only in the replica counts stored in the deployment
record (two replicas for cluster `a` in one, nine in the other) add one
template row each, and the two rows store different serialised
specifications. -/
theorem UpgradeDeployment_replica_leak_counterexample :
    exWorldNine = withMetaData (fun _ => "r9") exWorld ∧
      (UpgradeDeployment exEnvMeta exWorld exParam).world.templates =
        exWorld.templates ++
          [⟨10, 1, "web|kube-ns|2|app:v2,sidecar:v2", "[APIKey] d", "key"⟩] ∧
      (UpgradeDeployment exEnvMeta exWorldNine exParam).world.templates =
        exWorldNine.templates ++
          [⟨10, 1, "web|kube-ns|9|app:v2,sidecar:v2", "[APIKey] d", "key"⟩] ∧
      "web|kube-ns|2|app:v2,sidecar:v2" ≠ "web|kube-ns|9|app:v2,sidecar:v2" := by
  refine ⟨rfl, by rfl, by rfl, by decide⟩

/-- C11 (amended): two runs that differ only in the replica counts stored
in the deployment record resolve, for every cluster, the same template (so
the same pre-mutation template id), cluster and namespace and the same
workload object up to its replica field. Within a run of the image branch
of `UpgradeDeployment` in which every cluster resolves and merges and the
serialisation and the store writes succeed, the new template rows have
pairwise different ids, every group has its row, and for every new row
there is a requested cluster, the first one with its pre-mutation template
id, such that: the members of `deployInfoMap` that carry the id of the row
are exactly the members of the group of that cluster, the cluster itself
among them; and the specification stored in the row is the serialisation of
the workload object of that cluster after `DeploymentPreDeploy` and the
image merge, an object resolved with the replica count of the deployment
record for that cluster in its replica field. -/
theorem UpgradeDeployment_template_text (env : Env) (w : World)
    (param : UpgradeDeploymentParam) (publish : Bool) (templateId : Int)
    (hp : param.Publish = .ok publish) (ht : param.TemplateId = .ok templateId)
    (hpath : ¬ (templateId ≠ 0 ∧ publish = true))
    (hmap : (parseImages param.Images).len ≠ 0)
    (hres : ∀ cluster ∈ Split param.Cluster ',', ∃ deployInfo,
      getOnlineDeploymenetInfo env w param.Deployment param.Namespace cluster 0 =
        .ok deployInfo ∧
      (mergeCluster env param (parseImages param.Images) deployInfo).2 = [])
    (hmarshal : ∀ o, ∃ s, env.marshalDeployment o = .ok s)
    (hadd : ∀ w2 t, env.tplAddErr w2 t = none)
    (hupd : ∀ w2 d, env.deploymentUpdateErr w2 d = none)
    (horder : ∀ m, (env.rangeOrder m).Perm m) :
    (∀ (g : String → String) (cluster : String) (i1 i2 : DeploymentInfo),
      getOnlineDeploymenetInfo env w param.Deployment param.Namespace cluster 0 = .ok i1 →
      getOnlineDeploymenetInfo env (withMetaData g w) param.Deployment param.Namespace
        cluster 0 = .ok i2 →
      i2.DeploymentTemplete = i1.DeploymentTemplete ∧
      i2.Cluster = i1.Cluster ∧ i2.Namespace = i1.Namespace ∧
      i2.DeploymentObject =
        { i1.DeploymentObject with Replicas := i2.DeploymentObject.Replicas }) ∧
    ∃ rows : List DeploymentTemplate,
      (UpgradeDeployment env w param).world.templates = w.templates ++ rows ∧
      (rows.map (fun t => t.Id)).Nodup ∧
      (∀ cluster ∈ Split param.Cluster ',', ∃ row ∈ rows, ∀ infos info,
        (onlineTemplateId env w param cluster, infos) ∈
          (UpgradeDeployment env w param).deployInfoMap →
        info ∈ infos → info.DeploymentTemplete.Id = row.Id) ∧
      ∀ row ∈ rows, ∃ before cluster after deployInfo d meta,
        Split param.Cluster ',' = before ++ cluster :: after ∧
        (∀ c ∈ before,
          onlineTemplateId env w param c ≠ onlineTemplateId env w param cluster) ∧
        getOnlineDeploymenetInfo env w param.Deployment param.Namespace cluster 0 =
          .ok deployInfo ∧
        DeploymentModel.GetByName w param.Deployment = .ok d ∧
        env.unmarshalDeploymentMeta d.MetaData = .ok meta ∧
        deployInfo.DeploymentObject.Replicas =
          some ((meta.Replicas.lookup cluster).getD 0) ∧
        env.marshalDeployment
          (mergeCluster env param (parseImages param.Images) deployInfo).1.DeploymentObject =
          .ok row.Template ∧
        (∃ infos info,
          (onlineTemplateId env w param cluster, infos) ∈
            (UpgradeDeployment env w param).deployInfoMap ∧
          info ∈ infos ∧ info.Cluster.Name = cluster ∧
          info.DeploymentTemplete.Id = row.Id) ∧
        ∀ k infos info, (k, infos) ∈ (UpgradeDeployment env w param).deployInfoMap →
          info ∈ infos →
          (info.DeploymentTemplete.Id = row.Id ↔ k = onlineTemplateId env w param cluster) := by
  constructor
  · intro g cluster i1 i2 h1 h2
    obtain ⟨a, b, c, _, e⟩ := getOnlineDeploymenetInfo_withMetaData env w g param.Deployment
      param.Namespace cluster 0 i1 i2 h1 h2
    exact ⟨a, b, c, e⟩
  -- the first loop
  have h1 := mergeLoop_ok env w param (parseImages param.Images) (Split param.Cluster ',') hres
    Controller.new []
  have hmnd := GoMap.nodup_keys_foldl_push
    ((Split param.Cluster ',').filterMap (mergedPair env w param (parseImages param.Images)))
    ([] : GoMap Int (List DeploymentInfo)) (by simp [GoMap.keys])
  have hlook := GoMap.lookup_foldl_push
    ((Split param.Cluster ',').filterMap (mergedPair env w param (parseImages param.Images)))
    ([] : GoMap Int (List DeploymentInfo))
  have hkeys := GoMap.mem_keys_foldl_push
    ((Split param.Cluster ',').filterMap (mergedPair env w param (parseImages param.Images)))
    ([] : GoMap Int (List DeploymentInfo))
  have hexists := GoMap.exists_group_of_mem
    ((Split param.Cluster ',').filterMap (mergedPair env w param (parseImages param.Images)))
  generalize hm : ((Split param.Cluster ',').filterMap
    (mergedPair env w param (parseImages param.Images))).foldl
      (fun m p => GoMap.push m p.1 p.2) ([] : GoMap Int (List DeploymentInfo)) = m
    at h1 hmnd hlook hkeys hexists
  have hperm := horder m
  generalize hgs : env.rangeOrder m = gs at hperm
  have hgnd : (gs.map Prod.fst).Nodup := (hperm.map Prod.fst).nodup_iff.2 hmnd
  have hgne : ∀ g ∈ gs, g.2 ≠ [] := by
    intro g hg hnil
    have hgm : (g.1, g.2) ∈ m := hperm.mem_iff.1 hg
    have hl := GoMap.lookup_eq_some_of_mem m g.1 g.2 hmnd hgm
    have hk : g.1 ∈ GoMap.keys m := GoMap.mem_keys_of_mem m g.1 g.2 hgm
    rw [hkeys] at hk
    have h3 := hlook g.1
    rw [hl, hnil] at h3
    simp only [Option.getD_some, GoMap.lookup, Option.getD_none, List.nil_append] at h3
    rcases hk with hk | hk
    · simp [GoMap.keys] at hk
    · obtain ⟨p, hp1, hp2⟩ := List.mem_map.1 hk
      have : p.2 ∈ List.map Prod.snd (List.filter (fun q => decide (q.1 = g.1))
          ((Split param.Cluster ',').filterMap
            (mergedPair env w param (parseImages param.Images)))) :=
        List.mem_map.2 ⟨p, List.mem_filter.2 ⟨hp1, by simp [hp2]⟩, rfl⟩
      rw [← h3] at this
      simp at this
  have huniq : ∀ k a b, (k, a) ∈ gs → (k, b) ∈ gs → a = b := by
    intro k a b ha hb
    have h3 := GoMap.lookup_eq_some_of_mem gs k a hgnd ha
    have h4 := GoMap.lookup_eq_some_of_mem gs k b hgnd hb
    rw [h3] at h4
    exact Option.some.inj h4
  -- the second loop, seen from the groups and from the rows
  obtain ⟨w2, saved, rows, hs1, hs2, hs3, hs4, hs5⟩ :=
    saveLoop_ok env hmarshal hadd hupd gs hgne hgnd w Controller.new
  obtain ⟨w3, saved3, rows3, hr1, hr2, hr3⟩ :=
    saveLoop_rows env hmarshal hadd hupd gs hgne hgnd w Controller.new
  rw [hs1] at hr1
  have hw : w2 = w3 := (Prod.mk.inj hr1).1
  subst hw
  have hrows : rows = rows3 := by
    rw [hs2] at hr2
    exact List.append_cancel_left hr2
  subst hrows
  rw [← hgs] at hs1
  obtain ⟨hout1, hout2⟩ := UpgradeDeployment_of_saved env w w2 param publish templateId m saved
    hp ht hpath hmap h1 hs1
  rw [hout1, hout2]
  have hpre : ∀ cluster deployInfo,
      getOnlineDeploymenetInfo env w param.Deployment param.Namespace cluster 0 =
        .ok deployInfo →
      onlineTemplateId env w param cluster = deployInfo.DeploymentTemplete.Id := by
    intro cluster di hdi
    simp only [onlineTemplateId, hdi]
  -- the group of a cluster after the second loop
  have hgroup : ∀ cluster ∈ Split param.Cluster ',', ∀ deployInfo,
      getOnlineDeploymenetInfo env w param.Deployment param.Namespace cluster 0 =
        .ok deployInfo →
      onlineTemplateId env w param cluster ∈ gs.map Prod.fst ∧
      ∃ infos info, (onlineTemplateId env w param cluster, infos) ∈ saved ∧ info ∈ infos ∧
        info.Cluster.Name = cluster := by
    intro cluster hc di hdi
    obtain ⟨vs, hvs, hv⟩ := hexists di.DeploymentTemplete.Id
      (mergeCluster env param (parseImages param.Images) di).1
      ((mem_mergedPairs env w param (parseImages param.Images) (Split param.Cluster ',') _ _).2
        ⟨cluster, hc, di, hdi, rfl, rfl⟩)
    have hkg : di.DeploymentTemplete.Id ∈ gs.map Prod.fst :=
      List.mem_map.2 ⟨_, hperm.mem_iff.2 hvs, rfl⟩
    have hk2 : di.DeploymentTemplete.Id ∈ saved.map Prod.fst := by
      rw [hs4]
      exact hkg
    obtain ⟨⟨k, infos2⟩, hin, hk3⟩ := List.mem_map.1 hk2
    simp only at hk3
    subst hk3
    obtain ⟨infos, hg, hcl, _⟩ := hs5 _ infos2 hin
    have hvs2 := huniq _ _ _ hg (hperm.mem_iff.2 hvs)
    subst hvs2
    have : (mergeCluster env param (parseImages param.Images) di).1.Cluster ∈
        infos2.map (fun i => i.Cluster) := by
      rw [hcl]
      exact List.mem_map.2 ⟨_, hv, rfl⟩
    obtain ⟨info, hinfo, he⟩ := List.mem_map.1 this
    rw [hpre cluster di hdi]
    refine ⟨hkg, infos2, info, hin, hinfo, ?_⟩
    rw [he]
    exact getOnlineDeploymenetInfo_cluster env w _ _ cluster 0 di hdi
  have hcarry : ∀ k infos info, (k, infos) ∈ saved → info ∈ infos →
      k ∈ gs.map Prod.fst ∧
      info.DeploymentTemplete.Id =
        nextTemplateId w.templates + ((gs.map Prod.fst).indexOf k : Int) := by
    intro k infos2 info hin hinfo
    obtain ⟨infos, hg, _, hid⟩ := hs5 k infos2 hin
    exact ⟨List.mem_map.2 ⟨_, hg, rfl⟩, hid info hinfo⟩
  refine ⟨rows, hs2, ?_, ?_, ?_⟩
  · rw [hs3]
    apply List.Nodup.map _ (List.nodup_range _)
    intro i j hij
    simp only at hij
    omega
  · intro cluster hc
    obtain ⟨di, hdi, _⟩ := hres cluster hc
    obtain ⟨hkg, _⟩ := hgroup cluster hc di hdi
    have hidx : (gs.map Prod.fst).indexOf (onlineTemplateId env w param cluster) <
        gs.length := by
      have := List.indexOf_lt_length.2 hkg
      simpa using this
    have : nextTemplateId w.templates +
        (((gs.map Prod.fst).indexOf (onlineTemplateId env w param cluster) : Nat) : Int) ∈
        rows.map (fun t => t.Id) := by
      rw [hs3]
      exact List.mem_map.2 ⟨_, List.mem_range.2 hidx, rfl⟩
    obtain ⟨row, hr, he⟩ := List.mem_map.1 this
    refine ⟨row, hr, ?_⟩
    intro infos info hin hinfo
    rw [(hcarry _ infos info hin hinfo).2]
    exact he.symm
  · intro row hr
    obtain ⟨k, first, others, hg, hmar, _, hid⟩ := hr3 row hr
    have hgm : (k, first :: others) ∈ m := hperm.mem_iff.1 hg
    have hl := GoMap.lookup_eq_some_of_mem m k (first :: others) hmnd hgm
    have h3 := hlook k
    rw [hl] at h3
    simp only [Option.getD_some, GoMap.lookup, Option.getD_none, List.nil_append] at h3
    obtain ⟨before, cluster, after, deployInfo, e1, e2, e3, e4, e5⟩ :=
      first_of_group env w param (parseImages param.Images) (Split param.Cluster ',') hres k
        first others h3.symm
    obtain ⟨d, _, _, _, _, meta, _, hd, _, _, _, _, _, _, hmeta, _, hinfo⟩ :=
      getOnlineDeploymenetInfo_ok_inv env w param.Deployment param.Namespace cluster 0
        deployInfo e4
    have hc : cluster ∈ Split param.Cluster ',' := by
      rw [e1]
      simp
    have hkg : k ∈ gs.map Prod.fst := List.mem_map.2 ⟨_, hg, rfl⟩
    refine ⟨before, cluster, after, deployInfo, d, meta, e1, ?_, e4, hd, hmeta, ?_, ?_, ?_, ?_⟩
    · intro c hc2
      rw [e3]
      exact e2 c hc2
    · rw [hinfo]
    · rw [← e5]
      exact hmar
    · obtain ⟨_, infos, info, hin, hinfo2, hname⟩ := hgroup cluster hc deployInfo e4
      refine ⟨infos, info, hin, hinfo2, hname, ?_⟩
      rw [(hcarry _ infos info hin hinfo2).2, hid, e3]
    · intro k2 infos info hin hinfo2
      obtain ⟨hk2, hid2⟩ := hcarry k2 infos info hin hinfo2
      rw [hid2, hid, e3]
      constructor
      · intro e
        have : (gs.map Prod.fst).indexOf k2 = (gs.map Prod.fst).indexOf k := by omega
        exact (List.indexOf_inj hk2 hkg).1 this
      · intro e
        rw [e]

/-- C11 (amended) on the example: for `web` on the clusters `a`, `d` and
`b`, every row added stores the serialisation of the object of the first
cluster of a group, and the members of that group are those that carry the
id of the row. -/
theorem UpgradeDeployment_template_text_witness :
    ∃ rows : List DeploymentTemplate,
      (UpgradeDeployment exEnvMeta exWorld exParam3).world.templates =
        exWorld.templates ++ rows ∧
      (rows.map (fun t => t.Id)).Nodup ∧
      ∀ row ∈ rows, ∃ before cluster after deployInfo,
        Split exParam3.Cluster ',' = before ++ cluster :: after ∧
        getOnlineDeploymenetInfo exEnvMeta exWorld exParam3.Deployment exParam3.Namespace
          cluster 0 = .ok deployInfo ∧
        exEnvMeta.marshalDeployment
          (mergeCluster exEnvMeta exParam3 (parseImages exParam3.Images)
            deployInfo).1.DeploymentObject = .ok row.Template ∧
        ∀ k infos info,
          (k, infos) ∈ (UpgradeDeployment exEnvMeta exWorld exParam3).deployInfoMap →
          info ∈ infos →
          (info.DeploymentTemplete.Id = row.Id ↔
            k = onlineTemplateId exEnvMeta exWorld exParam3 cluster) := by
  have hsplit : Split exParam3.Cluster ',' = ["a", "d", "b"] := by rfl
  obtain ⟨rows, h1, h2, _, h4⟩ :=
    (UpgradeDeployment_template_text exEnvMeta exWorld exParam3 true 0 rfl rfl (by decide)
      (by decide)
      (by
        intro cluster hc
        rw [hsplit] at hc
        simp only [List.mem_cons, List.mem_singleton, List.not_mem_nil, or_false] at hc
        rcases hc with rfl | rfl | rfl
        · exact ⟨_, rfl, rfl⟩
        · exact ⟨_, rfl, rfl⟩
        · exact ⟨_, rfl, rfl⟩)
      (fun o => ⟨_, rfl⟩) (fun _ _ => rfl) (fun _ _ => rfl) (fun m => List.Perm.refl m)).2
  refine ⟨rows, h1, h2, ?_⟩
  intro row hr
  obtain ⟨before, cluster, after, deployInfo, _, _, e1, _, e3, _, _, _, e7, _, e9⟩ := h4 row hr
  exact ⟨before, cluster, after, deployInfo, e1, e3, e7, e9⟩

/-! ## `publishDeployment` -/

/-- Without a cluster handle the publisher only returns its error. -/
theorem publishDeployment_client_error (env : Env) (w : World) (deployInfo : DeploymentInfo)
    (username e : String) (h : env.clientErr w deployInfo.Cluster.Name = some e) :
    publishDeployment env w deployInfo username =
      (w.call (.Client deployInfo.Cluster.Name),
        some ("Failed to get k8s client(cluster: " ++ deployInfo.Cluster.Name ++ "): " ++ e)) := by
  simp only [publishDeployment, h]

/-- C4 (as stated it fails): with no cluster handle the publisher returns an
error and appends nothing to the history store. -/
theorem publishDeployment_history_counterexample :
    (publishDeployment exEnvDown exWorld exInfoA "key").2 ≠ none ∧
      (publishDeployment exEnvDown exWorld exInfoA "key").1.publishHistory =
        exWorld.publishHistory ∧
      ¬ ∃ h : PublishHistory,
        (publishDeployment exEnvDown exWorld exInfoA "key").1.publishHistory =
          exWorld.publishHistory ++ [h] := by
  refine ⟨by decide, by decide, ?_⟩
  rintro ⟨h, hh⟩
  have := congrArg List.length hh
  simp [publishDeployment, exEnvDown, World.call, exWorld] at this

/-- C4 (amended): a call of `publishDeployment` that obtains the cluster
handle issues exactly one insert into the history store, whatever the
outcome of the apply and of the status upsert, for a row that carries the
deployment id, the template id and the cluster name of the
`DeploymentInfo`; the world it leaves is the world after that one insert,
so exactly one row is appended when the store accepts the insert and the
history store is as it was when the store refuses it. A call that does not
obtain the handle returns the error of the handle lookup, wrapped in its
message, issues no insert (the world it leaves is the world after the
lookup alone) and leaves the history store as it was. -/
theorem publishDeployment_history_once (env : Env) (w : World) (deployInfo : DeploymentInfo)
    (username : String) :
    (env.clientErr w deployInfo.Cluster.Name = none ∧
      ∃ (w2 : World) (h : PublishHistory),
        (publishDeployment env w deployInfo username).1 = deferredHistoryAdd env w2 h ∧
        w2.publishHistory = w.publishHistory ∧
        h.ResourceId = deployInfo.Deployment.Id ∧
        h.TemplateId = deployInfo.DeploymentTemplete.Id ∧
        h.Cluster = deployInfo.Cluster.Name ∧
        (env.historyAddErr w2 h = none →
          (publishDeployment env w deployInfo username).1.publishHistory =
            w.publishHistory ++ [h]) ∧
        (env.historyAddErr w2 h ≠ none →
          (publishDeployment env w deployInfo username).1.publishHistory =
            w.publishHistory)) ∨
    (∃ e, env.clientErr w deployInfo.Cluster.Name = some e ∧
      (publishDeployment env w deployInfo username).2 =
        some ("Failed to get k8s client(cluster: " ++ deployInfo.Cluster.Name ++ "): " ++ e) ∧
      (publishDeployment env w deployInfo username).1 =
        w.call (.Client deployInfo.Cluster.Name) ∧
      (publishDeployment env w deployInfo username).1.publishHistory = w.publishHistory) := by
  have key : ∀ (w2 : World) (h : PublishHistory) (r : World),
      r = deferredHistoryAdd env w2 h → w2.publishHistory = w.publishHistory →
      (env.historyAddErr w2 h = none → r.publishHistory = w.publishHistory ++ [h]) ∧
      (env.historyAddErr w2 h ≠ none → r.publishHistory = w.publishHistory) := by
    intro w2 h r hr hw
    rw [hr, ← hw]
    exact deferredHistoryAdd_publishHistory env w2 h
  cases hc : env.clientErr w deployInfo.Cluster.Name with
  | some e =>
    right
    rw [publishDeployment_client_error env w deployInfo username e hc]
    exact ⟨e, rfl, rfl, rfl, rfl⟩
  | none =>
    left
    refine ⟨rfl, ?_⟩
    cases ha : env.createOrUpdateErr (w.call (.Client deployInfo.Cluster.Name))
        deployInfo.Cluster.Name deployInfo.DeploymentObject with
    | some e =>
      have hp : (publishDeployment env w deployInfo username).1 =
          deferredHistoryAdd env
            ((w.call (.Client deployInfo.Cluster.Name)).call
              (.CreateOrUpdateDeployment deployInfo.Cluster.Name deployInfo.DeploymentObject))
            { PublishType := env.PublishTypeDeployment
              ResourceId := deployInfo.Deployment.Id
              ResourceName := deployInfo.DeploymentObject.Name
              TemplateId := deployInfo.DeploymentTemplete.Id
              Cluster := deployInfo.Cluster.Name
              User := username
              Message := e
              Status := env.ReleaseFailure } := by
        simp only [publishDeployment, hc, ha]
      exact ⟨_, _, hp, rfl, rfl, rfl, rfl, key _ _ _ hp rfl⟩
    | none =>
      cases hs : env.statusAddErr
          ((w.call (.Client deployInfo.Cluster.Name)).call
            (.CreateOrUpdateDeployment deployInfo.Cluster.Name deployInfo.DeploymentObject))
          { PublishType := env.PublishTypeDeployment, ResourceId := deployInfo.Deployment.Id,
            TemplateId := deployInfo.DeploymentTemplete.Id, Cluster := deployInfo.Cluster.Name } with
      | some e =>
        have hp : (publishDeployment env w deployInfo username).1 =
            deferredHistoryAdd env
              ((w.call (.Client deployInfo.Cluster.Name)).call
                (.CreateOrUpdateDeployment deployInfo.Cluster.Name deployInfo.DeploymentObject))
              { PublishType := env.PublishTypeDeployment
                ResourceId := deployInfo.Deployment.Id
                ResourceName := deployInfo.DeploymentObject.Name
                TemplateId := deployInfo.DeploymentTemplete.Id
                Cluster := deployInfo.Cluster.Name
                User := username
                Message := deployInfo.DeploymentTemplete.Description
                Status := env.ReleaseSuccess } := by
          simp only [publishDeployment, hc, ha, PublishStatusModel.Add, hs]
        exact ⟨_, _, hp, rfl, rfl, rfl, rfl, key _ _ _ hp rfl⟩
      | none =>
        have hp : (publishDeployment env w deployInfo username).1 =
            deferredHistoryAdd env
              { ((w.call (.Client deployInfo.Cluster.Name)).call
                  (.CreateOrUpdateDeployment deployInfo.Cluster.Name
                    deployInfo.DeploymentObject)) with
                publishStatus := upsertStatus w.publishStatus
                  { PublishType := env.PublishTypeDeployment
                    ResourceId := deployInfo.Deployment.Id
                    TemplateId := deployInfo.DeploymentTemplete.Id
                    Cluster := deployInfo.Cluster.Name } }
              { PublishType := env.PublishTypeDeployment
                ResourceId := deployInfo.Deployment.Id
                ResourceName := deployInfo.DeploymentObject.Name
                TemplateId := deployInfo.DeploymentTemplete.Id
                Cluster := deployInfo.Cluster.Name
                User := username
                Message := deployInfo.DeploymentTemplete.Description
                Status := env.ReleaseSuccess } := by
          simp only [publishDeployment, hc, ha, PublishStatusModel.Add, hs]
          rfl
        exact ⟨_, _, hp, rfl, rfl, rfl, rfl, key _ _ _ hp rfl⟩

/-- C4 (amended), on the examples: with the apply refused one row is
appended, for deployment 1, template 5 and cluster `a`; when the history
store refuses the insert as well, no row is appended. -/
theorem publishDeployment_history_once_witness :
    exEnvRefused.clientErr exWorld exInfoA.Cluster.Name = none ∧
      (∃ h : PublishHistory,
        (publishDeployment exEnvRefused exWorld exInfoA "key").1.publishHistory =
          exWorld.publishHistory ++ [h] ∧
        h.ResourceId = 1 ∧ h.TemplateId = 5 ∧ h.Cluster = "a") ∧
      (publishDeployment exEnvNoHistory exWorld exInfoA "key").1.publishHistory =
        exWorld.publishHistory := by
  refine ⟨rfl, ?_, ?_⟩
  · rcases publishDeployment_history_once exEnvRefused exWorld exInfoA "key" with h | h
    · obtain ⟨_, w2, h, _, _, h3, h4, h5, h6, _⟩ := h
      exact ⟨h, h6 rfl, h3, h4, h5⟩
    · obtain ⟨e, he, _⟩ := h
      exact absurd (show (none : Option String) = some e from he) (by simp)
  · rcases publishDeployment_history_once exEnvNoHistory exWorld exInfoA "key" with h | h
    · obtain ⟨_, w2, h, _, _, _, _, _, _, h7⟩ := h
      exact h7 (by simp [exEnvNoHistory])
    · obtain ⟨e, he, _⟩ := h
      exact absurd (show (none : Option String) = some e from he) (by simp)

/-- C5: `publishDeployment` leaves the status store alone and returns an
error when the cluster handle cannot be obtained or the apply fails, and on
a failed apply the history row it hands to the history store has status
failure and the text of the apply error as message; when the apply succeeds
the history row it hands to the store has status success, the status upsert
is issued for the deployment id and cluster name of the `DeploymentInfo`
with its template id, and the error of that upsert, if any, is what the
caller gets. The history row is in the store afterwards when the store
accepts the insert. -/
theorem publishDeployment_status (env : Env) (w : World) (deployInfo : DeploymentInfo)
    (username : String) :
    (∀ e, env.clientErr w deployInfo.Cluster.Name = some e →
      (publishDeployment env w deployInfo username).1.publishStatus = w.publishStatus ∧
      (publishDeployment env w deployInfo username).2 ≠ none) ∧
    (env.clientErr w deployInfo.Cluster.Name = none →
      (∀ e, env.createOrUpdateErr (w.call (.Client deployInfo.Cluster.Name))
          deployInfo.Cluster.Name deployInfo.DeploymentObject = some e →
        (publishDeployment env w deployInfo username).1.publishStatus = w.publishStatus ∧
        (publishDeployment env w deployInfo username).2 ≠ none ∧
        ∃ (w2 : World) (h : PublishHistory),
          (publishDeployment env w deployInfo username).1 = deferredHistoryAdd env w2 h ∧
          w2.publishHistory = w.publishHistory ∧
          h.Status = env.ReleaseFailure ∧ h.Message = e ∧
          (env.historyAddErr w2 h = none →
            (publishDeployment env w deployInfo username).1.publishHistory =
              w.publishHistory ++ [h])) ∧
      (env.createOrUpdateErr (w.call (.Client deployInfo.Cluster.Name))
          deployInfo.Cluster.Name deployInfo.DeploymentObject = none →
        (∃ (w2 : World) (h : PublishHistory),
          (publishDeployment env w deployInfo username).1 = deferredHistoryAdd env w2 h ∧
          w2.publishHistory = w.publishHistory ∧
          h.Status = env.ReleaseSuccess ∧
          (env.historyAddErr w2 h = none →
            (publishDeployment env w deployInfo username).1.publishHistory =
              w.publishHistory ++ [h])) ∧
        (∀ e, PublishStatusModel.Add env
            ((w.call (.Client deployInfo.Cluster.Name)).call
              (.CreateOrUpdateDeployment deployInfo.Cluster.Name deployInfo.DeploymentObject))
            deployInfo.Deployment.Id deployInfo.DeploymentTemplete.Id deployInfo.Cluster.Name
            env.PublishTypeDeployment = .error e →
          (publishDeployment env w deployInfo username).2 = some e ∧
          (publishDeployment env w deployInfo username).1.publishStatus = w.publishStatus) ∧
        (∀ w3, PublishStatusModel.Add env
            ((w.call (.Client deployInfo.Cluster.Name)).call
              (.CreateOrUpdateDeployment deployInfo.Cluster.Name deployInfo.DeploymentObject))
            deployInfo.Deployment.Id deployInfo.DeploymentTemplete.Id deployInfo.Cluster.Name
            env.PublishTypeDeployment = .ok w3 →
          (publishDeployment env w deployInfo username).2 = none ∧
          (publishDeployment env w deployInfo username).1.publishStatus =
            upsertStatus w.publishStatus
              { PublishType := env.PublishTypeDeployment
                ResourceId := deployInfo.Deployment.Id
                TemplateId := deployInfo.DeploymentTemplete.Id
                Cluster := deployInfo.Cluster.Name }))) := by
  have key : ∀ (w2 : World) (h : PublishHistory) (r : World),
      r = deferredHistoryAdd env w2 h → w2.publishHistory = w.publishHistory →
      env.historyAddErr w2 h = none → r.publishHistory = w.publishHistory ++ [h] := by
    intro w2 h r hr hw
    rw [hr, ← hw]
    exact (deferredHistoryAdd_publishHistory env w2 h).1
  refine ⟨?_, ?_⟩
  · intro e hc
    rw [publishDeployment_client_error env w deployInfo username e hc]
    exact ⟨rfl, by simp⟩
  · intro hc
    refine ⟨?_, ?_⟩
    · intro e ha
      have hp : publishDeployment env w deployInfo username =
          (deferredHistoryAdd env
            ((w.call (.Client deployInfo.Cluster.Name)).call
              (.CreateOrUpdateDeployment deployInfo.Cluster.Name deployInfo.DeploymentObject))
            { PublishType := env.PublishTypeDeployment
              ResourceId := deployInfo.Deployment.Id
              ResourceName := deployInfo.DeploymentObject.Name
              TemplateId := deployInfo.DeploymentTemplete.Id
              Cluster := deployInfo.Cluster.Name
              User := username
              Message := e
              Status := env.ReleaseFailure },
            some ("Failed to create or update deployment by k8s client: " ++ e)) := by
        simp only [publishDeployment, hc, ha]
      rw [hp]
      refine ⟨?_, by simp, _, _, rfl, rfl, rfl, rfl, key _ _ _ rfl rfl⟩
      rw [deferredHistoryAdd_publishStatus]
      rfl
    · intro ha
      cases hs : env.statusAddErr
          ((w.call (.Client deployInfo.Cluster.Name)).call
            (.CreateOrUpdateDeployment deployInfo.Cluster.Name deployInfo.DeploymentObject))
          { PublishType := env.PublishTypeDeployment, ResourceId := deployInfo.Deployment.Id,
            TemplateId := deployInfo.DeploymentTemplete.Id, Cluster := deployInfo.Cluster.Name } with
      | some e0 =>
        have hp : publishDeployment env w deployInfo username =
            (deferredHistoryAdd env
              ((w.call (.Client deployInfo.Cluster.Name)).call
                (.CreateOrUpdateDeployment deployInfo.Cluster.Name deployInfo.DeploymentObject))
              { PublishType := env.PublishTypeDeployment
                ResourceId := deployInfo.Deployment.Id
                ResourceName := deployInfo.DeploymentObject.Name
                TemplateId := deployInfo.DeploymentTemplete.Id
                Cluster := deployInfo.Cluster.Name
                User := username
                Message := deployInfo.DeploymentTemplete.Description
                Status := env.ReleaseSuccess }, some e0) := by
          simp only [publishDeployment, hc, ha, PublishStatusModel.Add, hs]
        rw [hp]
        refine ⟨⟨_, _, rfl, rfl, rfl, key _ _ _ rfl rfl⟩, ?_, ?_⟩
        · intro e he
          simp only [PublishStatusModel.Add, hs] at he
          have := Except.error.inj he
          subst this
          refine ⟨rfl, ?_⟩
          rw [deferredHistoryAdd_publishStatus]
          rfl
        · intro w3 he
          simp only [PublishStatusModel.Add, hs] at he
          exact absurd he (by simp)
      | none =>
        have hp : publishDeployment env w deployInfo username =
            (deferredHistoryAdd env
              { ((w.call (.Client deployInfo.Cluster.Name)).call
                  (.CreateOrUpdateDeployment deployInfo.Cluster.Name
                    deployInfo.DeploymentObject)) with
                publishStatus := upsertStatus w.publishStatus
                  { PublishType := env.PublishTypeDeployment
                    ResourceId := deployInfo.Deployment.Id
                    TemplateId := deployInfo.DeploymentTemplete.Id
                    Cluster := deployInfo.Cluster.Name } }
              { PublishType := env.PublishTypeDeployment
                ResourceId := deployInfo.Deployment.Id
                ResourceName := deployInfo.DeploymentObject.Name
                TemplateId := deployInfo.DeploymentTemplete.Id
                Cluster := deployInfo.Cluster.Name
                User := username
                Message := deployInfo.DeploymentTemplete.Description
                Status := env.ReleaseSuccess }, none) := by
          simp only [publishDeployment, hc, ha, PublishStatusModel.Add, hs]
          rfl
        rw [hp]
        refine ⟨⟨_, _, rfl, rfl, rfl, key _ _ _ rfl rfl⟩, ?_, ?_⟩
        · intro e he
          simp only [PublishStatusModel.Add, hs] at he
          exact absurd he (by simp)
        · intro w3 _
          refine ⟨rfl, ?_⟩
          rw [deferredHistoryAdd_publishStatus]

/-! ## `ScaleDeployment` -/

/-- The first characters of a string that starts with `p`. -/
theorem take_data_append (p x : String) (n : Nat) (h : n ≤ p.data.length) :
    (p ++ x).data.take n = p.data.take n := by
  rw [String.data_append, List.take_append_of_le_length h]

/-- The first characters of a string that starts with `p`, two pieces behind it. -/
theorem take_data_append_append (p x y : String) (n : Nat) (h : n ≤ p.data.length) :
    (p ++ x ++ y).data.take n = p.data.take n := by
  rw [String.data_append, String.data_append, List.append_assoc,
    List.take_append_of_le_length h]

/-- A message that differs from the message of the replica bound within its
first nine characters is not that message. -/
theorem ne_boundMessage (s x y : String)
    (h : s.data.take 9 ≠ "Invalid replicas parameter: ".data.take 9) :
    s ≠ "Invalid replicas parameter: " ++ x ++ y := by
  intro e
  apply h
  rw [e, take_data_append_append _ _ _ 9 (by decide)]

/-- C8: `ScaleDeployment` answers a replica count that is at most 0 or more
than 32 with a bad request and leaves the world as it was (no call to a
cluster, no history row, no update of the deployment record); a replica
count from 1 to 32 is never answered with the error of the bound check. -/
theorem ScaleDeployment_replica_bound (env : Env) (w : World) (param : ScaleDeploymentParam)
    (replicas : Int) (hr : param.Replicas = .ok replicas) :
    ((replicas ≤ 0 ∨ replicas > 32) →
      ScaleDeployment env w param =
        (w, { Errors :=
                ["Invalid replicas parameter: " ++ toString replicas ++ " not in range (0,32]"]
              response := some (.failure StatusBadRequest
                ["Invalid replicas parameter: " ++ toString replicas ++
                  " not in range (0,32]"]) })) ∧
    ((1 ≤ replicas ∧ replicas ≤ 32) →
      (ScaleDeployment env w param).2.Errors ≠
        ["Invalid replicas parameter: " ++ toString replicas ++ " not in range (0,32]"]) := by
  constructor
  · intro hb
    have hb2 : replicas > 32 ∨ replicas ≤ 0 := hb.symm
    simp only [ScaleDeployment, hr, if_pos hb2, Controller.AddErrorAndResponse, Controller.new,
      List.nil_append]
  · intro hb
    have hb2 : ¬ (replicas > 32 ∨ replicas ≤ 0) := by omega
    unfold ScaleDeployment
    simp only [hr, if_neg hb2, Controller.AddErrorAndResponse, Controller.new, List.nil_append,
      Controller.HandleResponse, Controller.Panic]
    intro h
    split at h
    · exact ne_boundMessage _ _ _ (by decide) (List.cons.inj h).1
    split at h
    · exact ne_boundMessage _ _ _ (by decide) (List.cons.inj h).1
    split at h
    · refine ne_boundMessage _ _ _ ?_ (List.cons.inj h).1
      rw [take_data_append_append _ _ _ 9 (by decide)]
      decide
    split at h
    · exact ne_boundMessage _ _ _ (by decide) (List.cons.inj h).1
    split at h
    · refine ne_boundMessage _ _ _ ?_ (List.cons.inj h).1
      rw [take_data_append_append _ _ _ 9 (by decide)]
      decide
    split at h
    · exact ne_boundMessage _ _ _ (by decide) (List.cons.inj h).1
    split at h
    · refine ne_boundMessage _ _ _ ?_ (List.cons.inj h).1
      rw [take_data_append_append _ _ _ 9 (by decide)]
      decide
    split at h
    · refine ne_boundMessage _ _ _ ?_ (List.cons.inj h).1
      rw [take_data_append_append _ _ _ 9 (by decide)]
      decide
    split at h
    · exact absurd h (by simp)
    split at h
    · refine ne_boundMessage _ _ _ ?_ (List.cons.inj h).1
      rw [take_data_append_append _ _ _ 9 (by decide)]
      decide
    · exact absurd h (by simp)

/-- C8 on the examples: zero replicas are refused with nothing touched, three
replicas go through to the cluster. -/
theorem ScaleDeployment_replica_bound_witness :
    ScaleDeployment exEnv exWorld ⟨"web", "ns", "a", .ok 0, "", "key"⟩ =
        (exWorld, { Errors := ["Invalid replicas parameter: 0 not in range (0,32]"]
                    response := some (.failure 400
                      ["Invalid replicas parameter: 0 not in range (0,32]"]) }) ∧
      (ScaleDeployment exEnv exWorld ⟨"web", "ns", "a", .ok 3, "", "key"⟩).2 =
        { Errors := [], response := some (.handled [] none) } :=
  ⟨(ScaleDeployment_replica_bound exEnv exWorld ⟨"web", "ns", "a", .ok 0, "", "key"⟩ 0 rfl).1
      (by decide), by rfl⟩

/-! ## `GetDeploymentStatus` -/

/-- The loop over the pods keeps `false` and turns `true` into whether every
pod has an IP and is running. -/
theorem healthz_foldl (podInfo : List PodInfo) (h : Bool) :
    podInfo.foldl (fun h p => if p.PodIp = "" ∨ p.State ≠ PodRunning then false else h) h =
        true ↔
      h = true ∧ ∀ p ∈ podInfo, p.PodIp ≠ "" ∧ p.State = PodRunning := by
  induction podInfo generalizing h with
  | nil => simp
  | cons p rest ih =>
    simp only [List.foldl_cons, ih, List.mem_cons, forall_eq_or_imp]
    by_cases hp : p.PodIp = "" ∨ p.State ≠ PodRunning
    · simp only [if_pos hp, Bool.false_eq_true, false_and, false_iff, not_and]
      intro _ h1 _
      rcases hp with hp | hp
      · exact absurd hp h1.1
      · exact absurd h1.2 hp
    · simp only [if_neg hp]
      have hp2 : p.PodIp ≠ "" ∧ p.State = PodRunning := by
        constructor
        · exact fun e => hp (Or.inl e)
        · exact not_not.1 (fun e => hp (Or.inr e))
      constructor
      · rintro ⟨h1, h2⟩
        exact ⟨h1, hp2, h2⟩
      · rintro ⟨h1, _, h2⟩
        exact ⟨h1, h2⟩

/-- The flag is true exactly when the counts agree and every pod is fine. -/
theorem healthz_iff (current desired : Int) (podInfo : List PodInfo) :
    healthz current desired podInfo = true ↔
      current = desired ∧ ∀ p ∈ podInfo, p.PodIp ≠ "" ∧ p.State = PodRunning := by
  unfold healthz
  simp only [healthz_foldl]
  by_cases h : current = desired <;> simp [h]

/-- C10: when the namespace resolves and the cluster returns a deployment
detail and a pod list, `GetDeploymentStatus` answers with that detail, those
pods and a `Healthz` flag that is true if and only if the current pod count
equals the desired one and every pod of the list has a non-empty IP and is in
the phase Running. -/
theorem GetDeploymentStatus_healthz (env : Env) (w : World) (param : DeploymentStatusParam)
    (ns : Namespace) (nsMeta : NamespaceMetaData) (detail : DeploymentDetail)
    (pods : List PodInfo)
    (hns : NamespaceModel.GetByName w param.Namespace = .ok ns)
    (hmeta : env.unmarshalNamespaceMeta ns.MetaData = .ok nsMeta)
    (hmgr : env.managerErr w param.Cluster = none)
    (hdetail : env.getDeploymentDetail (w.call (.Manager param.Cluster)) param.Cluster
      param.Deployment nsMeta.Namespace = .ok detail)
    (hpods : env.getPodsByDeployment
      ((w.call (.Manager param.Cluster)).call
        (.GetDeploymentDetail param.Cluster param.Deployment nsMeta.Namespace))
      param.Cluster nsMeta.Namespace param.Deployment = .ok pods) :
    ∃ status : DeploymentStatus,
      (GetDeploymentStatus env w param).2.response = some (.handled [] (some status)) ∧
      status.Deployment = detail ∧ status.Pods = pods ∧
      (status.Healthz = true ↔
        detail.Pods.Current = detail.Pods.Desired ∧
          ∀ p ∈ pods, p.PodIp ≠ "" ∧ p.State = "Running") ∧
      (status.Healthz = false ↔
        detail.Pods.Current ≠ detail.Pods.Desired ∨
          (∃ p ∈ pods, p.PodIp = "") ∨ ∃ p ∈ pods, p.State ≠ "Running") := by
  refine ⟨⟨pods, detail, healthz detail.Pods.Current detail.Pods.Desired pods⟩, ?_, rfl, rfl,
    healthz_iff detail.Pods.Current detail.Pods.Desired pods, ?_⟩
  · simp only [GetDeploymentStatus, hns, hmeta, hmgr, hdetail, hpods, Controller.HandleResponse,
      Controller.new]
  · have h := healthz_iff detail.Pods.Current detail.Pods.Desired pods
    simp only [PodRunning] at h
    constructor
    · intro hf
      by_contra hcon
      simp only [not_or, not_exists, not_and, not_not] at hcon
      have : healthz detail.Pods.Current detail.Pods.Desired pods = true :=
        h.2 ⟨hcon.1, fun p hp => ⟨hcon.2.1 p hp, hcon.2.2 p hp⟩⟩
      have hf2 : healthz detail.Pods.Current detail.Pods.Desired pods = false := hf
      rw [hf2] at this
      exact absurd this (by simp)
    · intro hor
      cases hz : healthz detail.Pods.Current detail.Pods.Desired pods with
      | false => rfl
      | true =>
        have hz2 := h.1 hz
        rcases hor with h1 | ⟨p, hp, h2⟩ | ⟨p, hp, h2⟩
        · exact absurd hz2.1 h1
        · exact absurd h2 (hz2.2 p hp).1
        · exact absurd (hz2.2 p hp).2 h2

/-- C10 on an example: two pods wanted and two present, one of them without
an IP, so the flag is false. -/
theorem GetDeploymentStatus_healthz_witness :
    ∃ status : DeploymentStatus,
      (GetDeploymentStatus exEnvStatus exWorld ⟨"web", "ns", "a"⟩).2.response =
        some (.handled [] (some status)) ∧
      status.Pods = exPods ∧ status.Healthz = false := by
  obtain ⟨status, h1, _, h3, _, h5⟩ :=
    GetDeploymentStatus_healthz exEnvStatus exWorld ⟨"web", "ns", "a"⟩ ⟨"ns", "kube-ns", ⟨""⟩⟩
      ⟨"kube-ns"⟩ exDetail exPods (by rfl) (by rfl) (by rfl) (by rfl) (by rfl)
  exact ⟨status, h1, h3, h5.2 (Or.inr (Or.inl ⟨_, List.mem_cons_of_mem _ (List.mem_singleton.2 rfl), rfl⟩))⟩

end Wayne
